import Mathlib

/-!
Verification development for the `linenoise` line-editing library
(single source file `linenoise.c`).  The C code is shallowly embedded:

* machine bytes are `Nat` values (each C `char`/`unsigned char` is one byte);
* the edit buffer is modelled as unbounded memory `mem : Nat → Nat` together
  with the allocated capacity `buflen`; this makes out-of-bounds writes of the
  C code expressible (they show up as writes at indices `≥ buflen`);
* terminal output is modelled as a trace of `TermOut` commands, one
  constructor per escape sequence the C code writes;
* `read()` of already-decoded key codes is modelled by a list of `Int`
  key codes (the values returned by `readChar`: bytes `0..255` and the
  negative `ReadCharSpecials` codes);
* all loops are translated either to closed forms (documented at the
  definition) or to structurally recursive functions with an explicit
  fuel argument that dominates the C loop's iteration count.
-/

/-- `enum LinenoiseState` from linenoise.c. -/
inductive LinenoiseMode where
  | LS_NEW_LINE
  | LS_READ
  | LS_COMPLETION
  | LS_HISTORY_SEARCH
deriving DecidableEq, Repr

/-- `enum LinenoiseResult` from linenoise.c. -/
inductive LinenoiseResult where
  | LR_HAVE_TEXT
  | LR_CLOSED
  | LR_ERROR
  | LR_CANCELLED
  | LR_CONTINUE
deriving DecidableEq, Repr

/-- `enum AnsiEscapeState` from linenoise.c. -/
inductive AnsiEscapeState where
  | AES_NONE
  | AES_INTERMEDIATE
  | AES_CSI_PARAMETER
  | AES_CSI_INTERMEDIATE
  | AES_SS_CHARACTER
  | AES_FINAL
deriving DecidableEq, Repr

/-- `enum AnsiSequenceMeaning` from linenoise.c. -/
inductive AnsiSequenceMeaning where
  | ASM_C1
  | ASM_CSI
  | ASM_G2
  | ASM_G3
deriving DecidableEq, Repr

open LinenoiseMode LinenoiseResult AnsiEscapeState AnsiSequenceMeaning

/-- `enum ReadCharSpecials`: RCS_ERROR. -/
def RCS_ERROR : Int := -1
/-- `enum ReadCharSpecials`: RCS_CLOSED. -/
def RCS_CLOSED : Int := -2
/-- `enum ReadCharSpecials`: RCS_CANCELLED. -/
def RCS_CANCELLED : Int := -3
/-- `enum ReadCharSpecials`: RCS_ANSI_CURSOR_LEFT. -/
def RCS_ANSI_CURSOR_LEFT : Int := -4
/-- `enum ReadCharSpecials`: RCS_ANSI_CURSOR_RIGHT. -/
def RCS_ANSI_CURSOR_RIGHT : Int := -5
/-- `enum ReadCharSpecials`: RCS_ANSI_CURSOR_UP. -/
def RCS_ANSI_CURSOR_UP : Int := -6
/-- `enum ReadCharSpecials`: RCS_ANSI_CURSOR_DOWN. -/
def RCS_ANSI_CURSOR_DOWN : Int := -7
/-- `enum ReadCharSpecials`: RCS_ANSI_DELETE. -/
def RCS_ANSI_DELETE : Int := -8
/-- `enum ReadCharSpecials`: RCS_ANSI_HOME. -/
def RCS_ANSI_HOME : Int := -9
/-- `enum ReadCharSpecials`: RCS_ANSI_END. -/
def RCS_ANSI_END : Int := -10

/-- The bytes of an ASCII string literal, used to write C string constants. -/
def strBytes (s : String) : List Nat := s.data.map Char.toNat

/-- One terminal write of the C code.  Each constructor corresponds to one
escape sequence (or raw byte run) emitted by linenoise.c:
`colStart` = `ESC [0G`, `eraseEOL` = `ESC [0K`, `cursorFwd n` = `ESC [nC`,
`moveUp n` = `ESC [nA`, `moveDown n` = `ESC [nB`, `setCol n` = `ESC [nG`,
`cursorHome` = `ESC [H`, `clearDisplay` = `ESC [2J`, `bell` = `\x07`,
`text bs` = the raw bytes `bs`. -/
inductive TermOut where
  | colStart
  | eraseEOL
  | cursorFwd (n : Nat)
  | moveUp (n : Nat)
  | moveDown (n : Nat)
  | setCol (n : Nat)
  | cursorHome
  | clearDisplay
  | bell
  | text (bs : List Nat)
deriving DecidableEq, Repr

/-- The raw bytes visible in an output trace (the `text` chunks, in order). -/
def flattenText : List TermOut → List Nat
  | [] => []
  | TermOut.text bs :: rest => bs ++ flattenText rest
  | _ :: rest => flattenText rest

/- ===================== Terminal blacklist (isUnsupportedTerm) ============ -/

/-- ASCII lower-casing, the behaviour of C `tolower` in the default locale,
which is what `strcasecmp` applies byte-wise. -/
def asciiLower (c : Nat) : Nat := if 65 ≤ c ∧ c ≤ 90 then c + 32 else c

/-- `strcasecmp(a, b) == 0`: equality after ASCII lower-casing. -/
def strcasecmpEq (a b : List Nat) : Bool :=
  a.map asciiLower == b.map asciiLower

/-- `static char *unsupported_term[] = {"dumb","cons25",NULL};` -/
def unsupported_term : List (List Nat) := [strBytes "dumb", strBytes "cons25"]

/-- `isUnsupportedTerm()`: the input descriptor is not a TTY, or `TERM` is
set and case-insensitively equals a blacklist entry (`term = none` models an
unset `TERM` variable, where the C code returns 0). -/
def isUnsupportedTerm (istty : Bool) (term : Option (List Nat)) : Bool :=
  if !istty then true
  else
    match term with
    | none => false
    | some t => unsupported_term.any (fun u => strcasecmpEq t u)

/- ===================== ANSI escape state machine ========================= -/

/-- `struct linenoiseAnsi`, restricted to the fields the state machine reads
and writes (the timer fields live in `readChar` and are not part of
`ansiAddCharacter`).  The C arrays `ansi_escape` / `ansi_intermediate` /
`ansi_parameter` with their explicit lengths are modelled as lists; the
NUL-terminator writes performed in the `AES_FINAL` case do not change the
list contents and are omitted. -/
structure AnsiState where
  ansi_escape : List Nat
  ansi_intermediate : List Nat
  ansi_parameter : List Nat
  ansi_final : Nat
  ansi_state : AnsiEscapeState
  ansi_sequence_meaning : AnsiSequenceMeaning
deriving DecidableEq, Repr

/-- The `linenoiseAnsi` sub-state of the static zero-initialised `state`
(escape length 0, i.e. not inside a sequence). -/
def ansiInit : AnsiState :=
  { ansi_escape := [], ansi_intermediate := [], ansi_parameter := [],
    ansi_final := 0, ansi_state := AES_NONE, ansi_sequence_meaning := ASM_C1 }

/-- `ANSI_ESCAPE_MAX_LEN` -/
def ANSI_ESCAPE_MAX_LEN : Nat := 16

/-- `ansiAddCharacter()`: feed one byte to the escape-sequence recognizer.
Returns `(success, new state)`; the C function returns `false` either on an
invalid character (leaving the state untouched) or when the escape buffer is
full without having reached a final byte. -/
def ansiAddCharacter (la : AnsiState) (c : Nat) : Bool × AnsiState :=
  if la.ansi_escape.length = 0 then
    let la := { la with
      ansi_escape := [c], ansi_intermediate := [], ansi_parameter := [],
      ansi_sequence_meaning := ASM_C1, ansi_state := AES_INTERMEDIATE }
    (decide (la.ansi_escape.length ≠ ANSI_ESCAPE_MAX_LEN ∨ la.ansi_state = AES_FINAL), la)
  else
    if la.ansi_state = AES_INTERMEDIATE ∧ 0x20 ≤ c ∧ c ≤ 0x2F then
      let la := { la with ansi_escape := la.ansi_escape ++ [c],
                          ansi_intermediate := la.ansi_intermediate ++ [c] }
      (decide (la.ansi_escape.length ≠ ANSI_ESCAPE_MAX_LEN ∨ la.ansi_state = AES_FINAL), la)
    else if la.ansi_state = AES_CSI_INTERMEDIATE ∧ 0x20 ≤ c ∧ c < 0x2F then
      let la := { la with ansi_escape := la.ansi_escape ++ [c],
                          ansi_intermediate := la.ansi_intermediate ++ [c] }
      (decide (la.ansi_escape.length ≠ ANSI_ESCAPE_MAX_LEN ∨ la.ansi_state = AES_FINAL), la)
    else if la.ansi_state = AES_CSI_PARAMETER ∧ 0x20 ≤ c ∧ c < 0x2F then
      let la := { la with ansi_state := AES_CSI_INTERMEDIATE,
                          ansi_escape := la.ansi_escape ++ [c],
                          ansi_intermediate := la.ansi_intermediate ++ [c] }
      (decide (la.ansi_escape.length ≠ ANSI_ESCAPE_MAX_LEN ∨ la.ansi_state = AES_FINAL), la)
    else if la.ansi_state = AES_CSI_PARAMETER ∧ 0x30 ≤ c ∧ c < 0x3F then
      let la := { la with ansi_escape := la.ansi_escape ++ [c],
                          ansi_parameter := la.ansi_parameter ++ [c] }
      (decide (la.ansi_escape.length ≠ ANSI_ESCAPE_MAX_LEN ∨ la.ansi_state = AES_FINAL), la)
    else if la.ansi_state = AES_INTERMEDIATE ∧ 0x30 ≤ c ∧ c < 0x7F then
      let esc := la.ansi_escape ++ [c]
      let la :=
        if esc.length = 2 ∧ c = 0x5B then
          { la with ansi_escape := esc, ansi_state := AES_CSI_PARAMETER,
                    ansi_sequence_meaning := ASM_CSI }
        else if esc.length = 2 ∧ c = 0x4E then
          { la with ansi_escape := esc, ansi_state := AES_SS_CHARACTER,
                    ansi_sequence_meaning := ASM_G2 }
        else if esc.length = 2 ∧ c = 0x4F then
          { la with ansi_escape := esc, ansi_state := AES_SS_CHARACTER,
                    ansi_sequence_meaning := ASM_G3 }
        else
          { la with ansi_escape := esc, ansi_final := c, ansi_state := AES_FINAL }
      (decide (la.ansi_escape.length ≠ ANSI_ESCAPE_MAX_LEN ∨ la.ansi_state = AES_FINAL), la)
    else if (la.ansi_state = AES_CSI_INTERMEDIATE ∨ la.ansi_state = AES_CSI_PARAMETER)
        ∧ 0x40 ≤ c ∧ c < 0x7F then
      let la := { la with ansi_escape := la.ansi_escape ++ [c],
                          ansi_final := c, ansi_state := AES_FINAL }
      (decide (la.ansi_escape.length ≠ ANSI_ESCAPE_MAX_LEN ∨ la.ansi_state = AES_FINAL), la)
    else if la.ansi_state = AES_SS_CHARACTER then
      let la := { la with ansi_escape := la.ansi_escape ++ [c],
                          ansi_final := c, ansi_state := AES_FINAL }
      (decide (la.ansi_escape.length ≠ ANSI_ESCAPE_MAX_LEN ∨ la.ansi_state = AES_FINAL), la)
    else
      -- invalid character: return false, state untouched
      (false, la)

/- ===================== Editor state ====================================== -/

/-- A completion entry: `struct linenoiseSingleCompletion`. -/
structure SingleCompletion where
  suggestion : List Nat
  text : List Nat
  pos : Nat
deriving DecidableEq, Repr

/-- `struct linenoiseState` together with the globals it works with
(`history`, `history_max_len`, `mlmode`), plus the output trace `out`
accumulating every terminal write.  The edit buffer `buf` is the memory
`mem` (unbounded, so the out-of-bounds writes of the C code are expressible)
with allocated size `buflen`.  `comp.is_initialized`/`len`/`cvec` are
`compInit`/`comp`; `max_strlen` is recomputed from `comp` where needed
(it is exactly the running maximum the C code maintains).  The history
search sub-state models `hist_search_buf == NULL` as `hsBuf = none`. -/
structure LState where
  mem : Nat → Nat
  buflen : Nat
  len : Nat
  pos : Nat
  prompt : List Nat
  tempprompt : Option (List Nat)
  cols : Nat
  oldpos : Nat
  oldrpos : Nat
  maxrows : Nat
  history : List (List Nat)
  histMax : Nat
  historyIndex : Int
  mlmode : Bool
  needsRefresh : Bool
  isDisplayed : Bool
  isCancelled : Bool
  isClosed : Bool
  lstate : LinenoiseMode
  comp : List SingleCompletion
  compInit : Bool
  readBack : List Int
  hsBuf : Option (List Nat)
  hsCurrentIndex : Nat
  hsFound : Bool
  out : List TermOut

/-- Append terminal writes to the output trace. -/
def emit (l : LState) (es : List TermOut) : LState := { l with out := l.out ++ es }

/-- `getPrompt()`: the temporary prompt if set, the main prompt otherwise
(the returned length is the list length). -/
def getPrompt (l : LState) : List Nat := l.tempprompt.getD l.prompt

/-- The bytes `mem[start .. start+n)`. -/
def memRange (m : Nat → Nat) (start n : Nat) : List Nat :=
  (List.range n).map (fun i => m (start + i))

/-- `strlen`-style read of the C string at `mem[i..]`; `fuel` bounds the scan
(the callers pass the buffer capacity: under the NUL-termination invariant
the terminator is reached first). -/
def cstrRead (m : Nat → Nat) : Nat → Nat → List Nat
  | 0, _ => []
  | fuel+1, i => if m i = 0 then [] else m i :: cstrRead m fuel (i+1)

/-- `strdup(l->buf)`: the C string currently in the edit buffer. -/
def cstr (l : LState) : List Nat := cstrRead l.mem l.buflen 0

/-- The first `len` bytes of the edit buffer (the observable line content,
used to state claims about "the buffer"). -/
def bufList (l : LState) : List Nat := memRange l.mem 0 l.len

/-- `LINENOISE_LINE_INIT_MAX_AND_GROW` -/
def LINENOISE_GROW : Nat := 4096

/-- The `while (newlen < requested) newlen += LINENOISE_LINE_INIT_MAX_AND_GROW;`
loop of `ensureBufLen`.  `fuel` bounds the iteration count; every call site
passes `requested`, which dominates it because each round adds at least 1. -/
def growLoop : Nat → Nat → Nat → Nat
  | 0, newlen, _ => newlen
  | fuel+1, newlen, requested =>
      if newlen < requested then growLoop fuel (newlen + LINENOISE_GROW) requested
      else newlen

/-- `ensureBufLen()`: grow the buffer (realloc preserving contents) so that
`buflen ≥ requestedStrLen`, then write a NUL at the last allocated byte.
Allocation is modelled as always succeeding. -/
def ensureBufLen (l : LState) (requestedStrLen : Nat) : LState :=
  if l.buflen < requestedStrLen then
    let newlen := growLoop requestedStrLen (l.buflen + LINENOISE_GROW) requestedStrLen
    { l with buflen := newlen,
             mem := fun i => if i = newlen - 1 then 0 else l.mem i }
  else l

/- ===================== Display refresh =================================== -/

/-- The write sequence of `refreshSingleLine()`.
The C scroll loop `while((plen+pos) >= cols) { buf++; len--; pos--; }` is
translated by its closed form `d` (the number of iterations); the closed form
agrees with the loop whenever `plen < cols` (otherwise the C loop does not
terminate).  The second loop `while (plen+len > cols) len--;` is likewise
replaced by its final value. -/
def refreshSingleLineOut (l : LState) : List TermOut :=
  let prompt := getPrompt l
  let plen := prompt.length
  let d := if l.cols ≤ plen + l.pos then plen + l.pos + 1 - l.cols else 0
  let pos := l.pos - d
  let len0 := l.len - d
  let len1 := if plen + len0 > l.cols then l.cols - plen else len0
  [TermOut.colStart]
    ++ (if 0 < plen then [TermOut.text prompt] else [])
    ++ [TermOut.text (memRange l.mem d len1), TermOut.eraseEOL]
    ++ (if pos + plen ≠ 0 then [TermOut.colStart, TermOut.cursorFwd (pos + plen)] else [])

/-- The write sequence of `refreshMultiLine()`.  All writes depend only on the
pre-state (the interleaved `maxrows` updates do not influence any write), so
the trace is computed as one list; `refreshMultiLine` below performs the state
updates.  `int` subtractions (`old_rows-rpos`, `rows-rpos2`) appear only under
`> 0` guards with non-negative operands, so `Nat` truncated subtraction agrees
with the C `int` arithmetic in every branch condition. -/
def refreshMultiLineOut (l : LState) : List TermOut :=
  let prompt := getPrompt l
  let plen := prompt.length
  let rows := (plen + l.len + l.cols - 1) / l.cols
  let rpos := l.oldrpos
  let old_rows := l.maxrows
  let nl := l.pos ≠ 0 ∧ l.pos = l.len ∧ (l.pos + plen) % l.cols = 0
  let rows2 := if nl then rows + 1 else rows
  let rpos2 := (plen + l.pos + l.cols) / l.cols
  (if old_rows - rpos > 0 then [TermOut.moveDown (old_rows - rpos)] else [])
    ++ (List.replicate (old_rows - 1) [TermOut.colStart, TermOut.eraseEOL, TermOut.moveUp 1]).flatten
    ++ [TermOut.colStart, TermOut.eraseEOL]
    ++ (if 0 < plen then [TermOut.text prompt] else [])
    ++ [TermOut.text (memRange l.mem 0 l.len)]
    ++ (if nl then [TermOut.text [10], TermOut.colStart] else [])
    ++ (if rows2 - rpos2 > 0 then [TermOut.moveUp (rows2 - rpos2)] else [])
    ++ [TermOut.setCol (1 + (plen + l.pos) % l.cols)]

/-- The `maxrows` bookkeeping of `refreshMultiLine()`: first
`if (rows > maxrows) maxrows = rows;`, then — only when the newline-at-exact-
wrap branch runs — `rows++; if (rows > maxrows) maxrows = rows;`. -/
def refreshMultiLineMaxrows (l : LState) : Nat :=
  let plen := (getPrompt l).length
  let rows := (plen + l.len + l.cols - 1) / l.cols
  let m1 := if rows > l.maxrows then rows else l.maxrows
  if l.pos ≠ 0 ∧ l.pos = l.len ∧ (l.pos + plen) % l.cols = 0 then
    (if rows + 1 > m1 then rows + 1 else m1)
  else m1

/-- `refreshMultiLine()`: emit the write sequence and update
`maxrows`, `oldpos` and `oldrpos` (`rpos2 = (plen+pos+cols)/cols`). -/
def refreshMultiLine (l : LState) : LState :=
  { l with maxrows := refreshMultiLineMaxrows l,
           oldpos := l.pos,
           oldrpos := ((getPrompt l).length + l.pos + l.cols) / l.cols,
           out := l.out ++ refreshMultiLineOut l }

/-- `refreshLine()`: dispatch on the multi-line flag; on success clear
`needs_refresh` and set `is_displayed` (writes are modelled as succeeding). -/
def refreshLine (l : LState) : LState :=
  let l := if l.mlmode then refreshMultiLine l
           else { l with out := l.out ++ refreshSingleLineOut l }
  { l with needsRefresh := false, isDisplayed := true }

/-- `resetOnNewline()` -/
def resetOnNewline (l : LState) : LState :=
  { l with maxrows := 0, isDisplayed := false, needsRefresh := true }

/-- `clearScreen()`: write home + erase-display, then mark for refresh. -/
def clearScreen (l : LState) : LState :=
  { emit l [TermOut.cursorHome, TermOut.clearDisplay] with
      needsRefresh := true, maxrows := 0 }

/- ===================== Prompt handling =================================== -/

/-- `setTempPrompt()`: set (or clear, for `none`) the temporary prompt.
The C code raises `needs_refresh` when the effective prompt changes; with the
model's prompt always present, its three-way NULL test condenses to
`t ≠ some (getPrompt l)`. -/
def setTempPrompt (l : LState) (t : Option (List Nat)) : LState :=
  let l := if t ≠ some (getPrompt l) then { l with needsRefresh := true } else l
  { l with tempprompt := t }

/- ===================== Edit primitives =================================== -/

/-- The in-capacity body of `linenoiseEditInsert` (the `l->len < l->buflen`
branch): append or insert the byte, NUL-terminate, then either take the
single-line fast path (write just the byte) or refresh. -/
def linenoiseEditInsertCore (l : LState) (c : Int) : LState :=
  if l.len = l.pos then
    let l := { l with
      mem := fun i => if i = l.len + 1 then 0
                      else if i = l.pos then c.toNat
                      else l.mem i,
      pos := l.pos + 1, len := l.len + 1 }
    if ¬l.mlmode ∧ l.prompt.length + l.len < l.cols then
      emit l [TermOut.text [c.toNat]]
    else refreshLine l
  else
    let l := { l with
      mem := fun i => if i = l.len + 1 then 0
                      else if i = l.pos then c.toNat
                      else if l.pos + 1 ≤ i ∧ i ≤ l.len then l.mem (i - 1)
                      else l.mem i,
      pos := l.pos + 1, len := l.len + 1 }
    refreshLine l

/-- `linenoiseEditInsert()`.  The C source re-invokes itself after
`ensureBufLen(l, l->len + 1)`; since that call always establishes
`len < buflen` (the grow loop adds at least `LINENOISE_GROW`), the recursive
call takes the in-capacity branch, which is unrolled here (the dead `else`
arm is unreachable, see `ensureBufLen_makes_room`). -/
def linenoiseEditInsert (l : LState) (c : Int) : LState :=
  if 32 ≤ c then
    if l.len < l.buflen then linenoiseEditInsertCore l c
    else
      let l2 := ensureBufLen l (l.len + 1)
      if l2.len < l2.buflen then linenoiseEditInsertCore l2 c else l2
  else l

/-- `linenoiseEditMoveLeft()` -/
def linenoiseEditMoveLeft (l : LState) : LState :=
  if l.pos > 0 then refreshLine { l with pos := l.pos - 1 } else l

/-- `linenoiseEditMoveRight()` -/
def linenoiseEditMoveRight (l : LState) : LState :=
  if l.pos ≠ l.len then refreshLine { l with pos := l.pos + 1 } else l

/-- `linenoiseEditDelete()`: `memmove(buf+pos, buf+pos+1, len-pos-1)`, then
`len--` and NUL-terminate at the new length. -/
def linenoiseEditDelete (l : LState) : LState :=
  if l.len > 0 ∧ l.pos < l.len then
    let l := { l with
      mem := fun i => if i = l.len - 1 then 0
                      else if l.pos ≤ i ∧ i < l.len - 1 then l.mem (i + 1)
                      else l.mem i,
      len := l.len - 1 }
    refreshLine l
  else l

/-- `linenoiseEditBackspace()`: `memmove(buf+pos-1, buf+pos, len-pos)`, then
`pos--`, `len--` and NUL-terminate at the new length. -/
def linenoiseEditBackspace (l : LState) : LState :=
  if l.pos > 0 ∧ l.len > 0 then
    let l := { l with
      mem := fun i => if i = l.len - 1 then 0
                      else if l.pos - 1 ≤ i ∧ i < l.len - 1 then l.mem (i + 1)
                      else l.mem i,
      pos := l.pos - 1, len := l.len - 1 }
    refreshLine l
  else l

/-- The two backward scans of `linenoiseEditDeletePrevWord`
(`while (pos > 0 && buf[pos-1] ...) pos--;`); `fuel` bounds the iteration
count, every caller passes the starting position, which dominates it. -/
def skipBackWhile (m : Nat → Nat) (p : Nat → Bool) : Nat → Nat → Nat
  | 0, pos => pos
  | fuel+1, pos =>
      if 0 < pos ∧ p (m (pos - 1)) then skipBackWhile m p fuel (pos - 1) else pos

/-- `linenoiseEditDeletePrevWord()`: skip spaces then non-spaces backward,
then `memmove(buf+pos, buf+old_pos, len-old_pos+1)` (the copy includes the
NUL terminator) and shrink `len` by the distance moved. -/
def linenoiseEditDeletePrevWord (l : LState) : LState :=
  let old_pos := l.pos
  let pos1 := skipBackWhile l.mem (fun b => b == 32) l.pos l.pos
  let pos2 := skipBackWhile l.mem (fun b => b != 32) pos1 pos1
  let diff := old_pos - pos2
  let l := { l with
    mem := fun i => if pos2 ≤ i ∧ i ≤ pos2 + (l.len - old_pos) then l.mem (i + diff)
                    else l.mem i,
    pos := pos2, len := l.len - diff }
  refreshLine l

/-- `cancelInternal()`: echo `^C` (overwriting at the cursor when room
permits, otherwise via `linenoiseEditInsert`), then empty the line and reset
the display state. -/
def cancelInternal (l : LState) : LState :=
  let l :=
    if l.pos + 2 ≤ l.len then
      refreshLine { l with
        mem := fun i => if i = l.pos then 94 else if i = l.pos + 1 then 67 else l.mem i,
        pos := l.len }
    else if l.pos + 1 = l.len then
      linenoiseEditInsert
        (refreshLine { l with
          mem := fun i => if i = l.pos then 94 else l.mem i,
          pos := l.len })
        67
    else
      linenoiseEditInsert (linenoiseEditInsert l 94) 67
  resetOnNewline { l with len := 0 }

/- ===================== History store ===================================== -/

/-- `linenoiseHistoryAdd()`: no-op when the cap is 0; when full drop the
oldest entry; append a copy of the line.  (`strdup` failure is modelled as
success; the C function quietly returns in that case.) -/
def linenoiseHistoryAdd (h : List (List Nat)) (maxLen : Nat) (line : List Nat) :
    List (List Nat) :=
  if maxLen = 0 then h
  else
    let h := if h.length = maxLen then h.tail else h
    h ++ [line]

/-- `linenoiseEditUpdateHistoryEntry()`: when history has more than one entry,
overwrite `history[history_len - 1 - history_index]` with the current buffer. -/
def linenoiseEditUpdateHistoryEntry (l : LState) : LState :=
  if l.history.length > 1 then
    { l with history :=
        l.history.set (l.history.length - 1 - l.historyIndex.toNat) (cstr l) }
  else l

/-- `SIZE_MAX`, passed by `linenoiseEditHistoryNext` as the cursor position. -/
def SIZE_MAX : Nat := 2 ^ 64 - 1

/-- `linenoiseShowHistoryEntry()`: clamp the index (returning without buffer
change when it falls outside the history), otherwise copy the selected entry
into the buffer (the copy is `strlen` bytes plus the NUL, hence the
`takeWhile`), clamp the cursor, refresh. -/
def linenoiseShowHistoryEntry (l : LState) (index : Int) (pos : Nat) : LState :=
  if index < 0 then { l with historyIndex := 0 }
  else if (l.history.length : Int) ≤ index then
    { l with historyIndex := (l.history.length : Int) - 1 }
  else
    let e := (l.history.getD (l.history.length - 1 - index.toNat) []).takeWhile (· != 0)
    let l := { l with historyIndex := index }
    let l := ensureBufLen l e.length
    let l := { l with
      mem := fun i => if i < e.length then e.getD i 0
                      else if i = e.length then 0
                      else l.mem i,
      len := e.length,
      pos := min e.length pos }
    refreshLine l

/-- `linenoiseEditHistoryNext()`: `dir = true` is LINENOISE_HISTORY_PREV. -/
def linenoiseEditHistoryNext (l : LState) (prev : Bool) : LState :=
  if l.history.length > 1 then
    let l := linenoiseEditUpdateHistoryEntry l
    linenoiseShowHistoryEntry l (l.historyIndex + (if prev then 1 else -1)) SIZE_MAX
  else l

/- ===================== History file save / load ========================== -/

/-- `linenoiseHistorySave()`: `fprintf(fp, "%s\n", entry)` per entry; the file
is the byte sequence written. -/
def linenoiseHistorySave (h : List (List Nat)) : List Nat :=
  (h.map (fun e => e ++ [10])).flatten

/-- One `fgets(buf, LINENOISE_LINE_INIT_MAX_AND_GROW, fp)`: read at most
`n` bytes (the C call passes a 4096-byte buffer, hence at most 4095 bytes),
stopping after the first LF.  Returns the chunk and the remaining file. -/
def fgetsChunk : Nat → List Nat → List Nat × List Nat
  | _, [] => ([], [])
  | 0, rest => ([], rest)
  | n+1, b :: rest =>
      if b = 10 then ([b], rest)
      else
        let p := fgetsChunk n rest
        (b :: p.1, p.2)

/-- The line cleanup of `linenoiseHistoryLoad`: truncate at the first CR if
there is one, otherwise at the first LF
(`p = strchr(buf,'\r'); if (!p) p = strchr(buf,'\n'); if (p) *p = '\0';`). -/
def stripCRLF (bs : List Nat) : List Nat :=
  if bs.contains 13 then bs.takeWhile (· != 13) else bs.takeWhile (· != 10)

/-- The `while (fgets(...))` loop of `linenoiseHistoryLoad`; `fuel` bounds the
iteration count (each round consumes at least one byte, so the file length
dominates it). -/
def historyLoadLoop : Nat → List Nat → List (List Nat) → Nat → List (List Nat)
  | 0, _, h, _ => h
  | fuel+1, file, h, maxLen =>
      match file with
      | [] => h
      | _ :: _ =>
          let p := fgetsChunk 4095 file
          historyLoadLoop fuel p.2 (linenoiseHistoryAdd h maxLen (stripCRLF p.1)) maxLen

/-- `linenoiseHistoryLoad()`: read the file line by line, strip the first CR
or LF of each line, and `linenoiseHistoryAdd` the result to the history `h`. -/
def linenoiseHistoryLoad (file : List Nat) (h : List (List Nat)) (maxLen : Nat) :
    List (List Nat) :=
  historyLoadLoop file.length file h maxLen

/- ===================== History search (CTRL+R) =========================== -/

/-- Does `q` occur in `s` starting at offset `i`? (`q` nonempty in all uses.) -/
def matchesAt (s q : List Nat) (i : Nat) : Bool :=
  (s.drop i).take q.length == q

/-- The `strstr` loop of `linenoiseHistoryFindEntry`: `strstr` yields the
first occurrence, the loop then re-searches from `last_found + 1` until
exhaustion, so its net effect is the offset of the rightmost occurrence of
`q` in `s` (or none).  Modelled as a left fold keeping the last match. -/
def lastSubstrPos (s q : List Nat) : Option Nat :=
  (List.range (s.length + 1)).foldl
    (fun acc i => if matchesAt s q i then some i else acc) none

/-- The entry the C code calls `history[history_len - 1 - index]`
(index 0 is the newest entry). -/
def histEntry (h : List (List Nat)) (i : Nat) : List Nat :=
  h.getD (h.length - 1 - i) []

/-- The `while (new_index < history_len)` scan of `linenoiseHistoryFindEntry`:
starting at `newIndex`, find the first (i.e. newest-to-oldest first) entry
containing `q`, returning its index and the rightmost match offset.  `fuel`
bounds the iteration count; callers pass `h.length`, which dominates it. -/
def findLoop : Nat → List (List Nat) → List Nat → Nat → Option (Nat × Nat)
  | 0, _, _, _ => none
  | fuel+1, h, q, newIndex =>
      if newIndex < h.length then
        match lastSubstrPos (histEntry h newIndex) q with
        | some off => some (newIndex, off)
        | none => findLoop fuel h q (newIndex + 1)
      else none

/-- The temporary prompt `setSearchPrompt` renders:
`(reverse-i-search` BACKTICK query APOSTROPHE `): ` — written with explicit
byte codes 96 and 39 for the quote characters.  The `snprintf` buffer of
`hist_search_len + 23` bytes holds the rendered text exactly, so no
truncation occurs. -/
def searchPromptRender (q : List Nat) : List Nat :=
  strBytes "(reverse-i-search" ++ [96] ++ q ++ [39, 41, 58, 32]

/-- `setSearchPrompt()` -/
def setSearchPrompt (l : LState) : LState :=
  setTempPrompt l (some (searchPromptRender (l.hsBuf.getD [])))

/-- `linenoiseHistoryFindEntry()`: with a nonempty query, scan from
`current_index` toward older entries; on a match set the search prompt, mark
found, show the entry with the cursor just past the rightmost occurrence and
record the new index; otherwise beep and clear `found`. -/
def linenoiseHistoryFindEntry (l : LState) : LState :=
  let q := l.hsBuf.getD []
  if 0 < q.length then
    match findLoop l.history.length l.history q l.hsCurrentIndex with
    | some io =>
        let l := setSearchPrompt l
        let l := { l with hsFound := true }
        let l := linenoiseShowHistoryEntry l (io.1 : Int) (io.2 + q.length)
        { l with hsCurrentIndex := l.historyIndex.toNat }
    | none =>
        let l := emit l [TermOut.bell]
        { l with hsFound := false }
  else
    { l with hsFound := false }

/-- `freeHistorySearch()` -/
def freeHistorySearch (l : LState) : LState :=
  if l.hsBuf ≠ none then
    setTempPrompt
      { l with hsBuf := none, hsCurrentIndex := 0, hsFound := false } none
  else l

/- ===================== Completion ======================================== -/

/-- `freeCompletions()` -/
def freeCompletions (l : LState) : LState :=
  { l with comp := [], compInit := false }

/-- `max_strlen` of the completion set: the running maximum of suggestion
lengths maintained by `linenoiseAddCompletion`. -/
def compMaxStrlen (comp : List SingleCompletion) : Nat :=
  comp.foldl (fun m c => max m c.suggestion.length) 0

/-- `strcmp(a,b) ≤ 0` on byte strings; models `strcoll` in the default C
locale (plain byte comparison), used to sort suggestions. -/
def strLe : List Nat → List Nat → Bool
  | [], _ => true
  | _ :: _, [] => false
  | a :: as, b :: bs => if a < b then true else if b < a then false else strLe as bs

/-- `prepareCustomOutputOnNewLine()`: if something is displayed, refresh with
the cursor moved to the end, print CRLF, restore the cursor and reset the
display bookkeeping. -/
def prepareCustomOutputOnNewLine (l : LState) : LState :=
  if l.isDisplayed then
    let oldpos := l.pos
    let l := refreshLine { l with pos := l.len }
    let l := emit l [TermOut.text [13, 10]]
    resetOnNewline { l with pos := oldpos }
  else l

/-- `printf("%-*s", colSize, s)`: left-justified, space-padded field. -/
def padTo (s : List Nat) (w : Nat) : List Nat :=
  s ++ List.replicate (w - s.length) 32

/-- The column-major listing loop of `completeLine` (the `for (i ...)` with
`real_index = (i % cols) * rows + i / cols`), including the final CRLF when
the last row is incomplete. -/
def completionListing (sorted : List (List Nat)) (colSize cols rows : Nat) :
    List TermOut :=
  let n := sorted.length
  ((List.range n).foldl
    (fun acc i =>
      let realIndex := (i % cols) * rows + i / cols
      let acc := if realIndex < n then
          acc ++ [TermOut.text (padTo (sorted.getD realIndex []) colSize)]
        else acc
      if i % cols = cols - 1 then acc ++ [TermOut.text [13, 10]] else acc) [])
    ++ (if n % cols ≠ 0 then [TermOut.text [13, 10]] else [])

/-- `completeLine()`: no candidate → beep (and refresh if pending);
one candidate → replace the buffer with its text, clamp the cursor, refresh;
more → move to a fresh row, sort the suggestions, print them column-major,
refresh the edit line. -/
def completeLine (l : LState) : LState :=
  match l.comp with
  | [] =>
      let l := emit l [TermOut.bell]
      if l.needsRefresh then refreshLine l else l
  | [c0] =>
      let t := c0.text.takeWhile (· != 0)
      let l := ensureBufLen l t.length
      let l := { l with
        mem := fun i => if i < t.length then t.getD i 0
                        else if i = t.length then 0
                        else l.mem i,
        pos := min t.length c0.pos,
        len := t.length }
      refreshLine l
  | _ :: _ :: _ =>
      let l := prepareCustomOutputOnNewLine l
      let sorted := (l.comp.map (fun c => c.suggestion)).mergeSort strLe
      let colSize := compMaxStrlen l.comp + 2
      let cols := if l.cols / colSize = 0 then 1 else l.cols / colSize
      let rows := (l.comp.length + cols - 1) / cols
      let l := emit l (completionListing sorted colSize cols rows)
      refreshLine l

/- ===================== Key reading and dispatch ========================== -/

/-- `pushFrontChar()`: LIFO push of a key code into the bounded (32-entry)
read-back buffer, dropping the last entry when full; `RCS_NONE` (0) is
rejected. -/
def pushFrontChar (l : LState) (c : Int) : LState :=
  if c ≠ 0 then
    let rb := if l.readBack.length = 32 then l.readBack.dropLast else l.readBack
    { l with readBack := c :: rb }
  else l

/-- `readChar()` at the decoded-key level: a pending cancellation yields
`RCS_CANCELLED` (clearing the flag); otherwise refresh if needed, then pop
the read-back buffer, then the input stream; an exhausted stream models
`read() == 0`, i.e. `RCS_CLOSED`.  The byte-level ANSI recognition performed
inside the C `readChar` is modelled separately by `ansiAddCharacter`; the
input list carries the already-decoded key codes it produces. -/
def readCharM (l : LState) (inp : List Int) : Int × LState × List Int :=
  if l.isCancelled then (RCS_CANCELLED, { l with isCancelled := false }, inp)
  else
    let l := if l.needsRefresh then refreshLine l else l
    match l.readBack with
    | c :: rest => (c, { l with readBack := rest }, inp)
    | [] =>
        match inp with
        | c :: rest => (c, l, rest)
        | [] => (RCS_CLOSED, l, [])

/-- `resetState()`: free the mode-specific sub-state, pop the sentinel
history entry (`history_len--; free(history[history_len]);`) and return to
`LS_NEW_LINE`. -/
def resetState (l : LState) : LState :=
  if l.lstate ≠ LS_NEW_LINE then
    let l :=
      if l.lstate = LS_COMPLETION then freeCompletions l
      else if l.lstate = LS_HISTORY_SEARCH then freeHistorySearch l
      else l
    { l with history := l.history.dropLast, lstate := LS_NEW_LINE }
  else l

/-- `setClosed()` -/
def setClosed (l : LState) : LState :=
  resetState { l with isClosed := true }

/-- The key dispatch of `linenoiseEdit()` (the `switch (c)` together with the
`RCS_CLOSED`/`RCS_ERROR` checks preceding it).  `hasCb` models
`completionCallback != NULL`. -/
def linenoiseEditHandle (hasCb : Bool) (l : LState) (c : Int) :
    LinenoiseResult × LState :=
  if c = RCS_CLOSED then (LR_CLOSED, setClosed l)
  else if c = RCS_ERROR then (LR_ERROR, l)
  else if c = 13 then (LR_HAVE_TEXT, resetState l)
  else if c = RCS_CANCELLED ∨ c = 3 then
    -- doCancel is computed before cancelInternal runs; it is inlined here
    if l.len = 0 then (LR_CANCELLED, resetState (cancelInternal l))
    else (LR_CONTINUE, emit (resetState (cancelInternal l)) [TermOut.text [13, 10]])
  else if c = 127 ∨ c = 8 then (LR_CONTINUE, linenoiseEditBackspace l)
  else if c = 4 then
    if l.len > 0 then (LR_CONTINUE, linenoiseEditDelete l)
    else (LR_CLOSED, setClosed l)
  else if c = 20 then
    if 0 < l.pos ∧ l.pos < l.len then
      (LR_CONTINUE, refreshLine { l with
        mem := fun i => if i = l.pos - 1 then l.mem l.pos
                        else if i = l.pos then l.mem (l.pos - 1)
                        else l.mem i,
        pos := if l.pos ≠ l.len - 1 then l.pos + 1 else l.pos })
    else (LR_CONTINUE, l)
  else if c = 2 then (LR_CONTINUE, linenoiseEditMoveLeft l)
  else if c = 6 then (LR_CONTINUE, linenoiseEditMoveRight l)
  else if c = 16 then (LR_CONTINUE, linenoiseEditHistoryNext l true)
  else if c = 14 then (LR_CONTINUE, linenoiseEditHistoryNext l false)
  else if c = RCS_ANSI_CURSOR_LEFT then (LR_CONTINUE, linenoiseEditMoveLeft l)
  else if c = RCS_ANSI_CURSOR_RIGHT then (LR_CONTINUE, linenoiseEditMoveRight l)
  else if c = RCS_ANSI_CURSOR_UP ∨ c = RCS_ANSI_CURSOR_DOWN then
    (LR_CONTINUE, linenoiseEditHistoryNext l (c = RCS_ANSI_CURSOR_UP))
  else if c = RCS_ANSI_DELETE then (LR_CONTINUE, linenoiseEditDelete l)
  else if c = RCS_ANSI_HOME then (LR_CONTINUE, refreshLine { l with pos := 0 })
  else if c = RCS_ANSI_END then (LR_CONTINUE, refreshLine { l with pos := l.len })
  else if c = 21 then
    (LR_CONTINUE, refreshLine { l with
      mem := fun i => if i = 0 then 0 else l.mem i, pos := 0, len := 0 })
  else if c = 11 then
    (LR_CONTINUE, refreshLine { l with
      mem := fun i => if i = l.pos then 0 else l.mem i, len := l.pos })
  else if c = 1 then (LR_CONTINUE, refreshLine { l with pos := 0 })
  else if c = 5 then (LR_CONTINUE, refreshLine { l with pos := l.len })
  else if c = 12 then (LR_CONTINUE, refreshLine (clearScreen l))
  else if c = 23 then (LR_CONTINUE, linenoiseEditDeletePrevWord l)
  else if c = 9 then
    if hasCb then (LR_CONTINUE, { pushFrontChar l c with lstate := LS_COMPLETION })
    else (LR_CONTINUE, linenoiseEditInsert l c)
  else if c = 18 then
    (LR_CONTINUE,
      { pushFrontChar (linenoiseEditUpdateHistoryEntry l) c with
          lstate := LS_HISTORY_SEARCH })
  else (LR_CONTINUE, linenoiseEditInsert l c)

/-- `linenoiseEdit()`: on `LS_NEW_LINE` reset the buffer, push the sentinel
history entry and enter `LS_READ`; refresh if needed; read one key and
dispatch it. -/
def linenoiseEditStep (hasCb : Bool) (l : LState) (inp : List Int) :
    LinenoiseResult × LState × List Int :=
  let l :=
    if l.lstate = LS_NEW_LINE then
      let l :=
        if l.pos ≠ 0 ∨ l.len ≠ 0 then
          { l with pos := 0, len := 0,
                   mem := fun i => if i = 0 then 0 else l.mem i,
                   needsRefresh := true }
        else l
      { l with history := linenoiseHistoryAdd l.history l.histMax [],
               historyIndex := 0, lstate := LS_READ }
    else l
  let l := if l.needsRefresh ∨ ¬l.isDisplayed then refreshLine l else l
  let r := readCharM l inp
  let p := linenoiseEditHandle hasCb r.2.1 r.1
  (p.1, p.2, r.2.2)

/-- The key dispatch of `linenoiseCompletion()`.  `cb` models the registered
completion callback: given the buffer C string and the cursor, it yields the
entries it adds (allocation is modelled as succeeding, so the
`cvec == NULL` out-of-memory check is not reachable). -/
def linenoiseCompletionHandle (cb : List Nat → Nat → List SingleCompletion)
    (l : LState) (c : Int) : LinenoiseResult × LState :=
  if c = RCS_ERROR then (LR_ERROR, l)
  else if c = 9 then
    let wasInit := l.compInit
    if ¬wasInit ∨ l.comp.length = 1 then
      let l := freeCompletions l
      let l := { l with comp := cb (cstr l) l.pos, compInit := true }
      -- wasInitialized is false here, so completeLine runs iff comp.len < 2
      if l.comp.length < 2 then (LR_CONTINUE, completeLine l)
      else (LR_CONTINUE, l)
    else
      (LR_CONTINUE, completeLine l)
  else
    -- default (including CTRL_C / RCS_CANCELLED / RCS_CLOSED):
    -- hand the key back to normal processing
    let l := pushFrontChar (freeCompletions l) c
    (LR_CONTINUE, { l with lstate := LS_READ })

/-- `linenoiseCompletion()`: read one key and dispatch it. -/
def linenoiseCompletionStep (cb : List Nat → Nat → List SingleCompletion)
    (l : LState) (inp : List Int) : LinenoiseResult × LState × List Int :=
  let r := readCharM l inp
  let p := linenoiseCompletionHandle cb r.2.1 r.1
  (p.1, p.2, r.2.2)

/-- The key dispatch of `linenoiseHistorySearch()`.  The printable-key branch
appends to the query; the C realloc bookkeeping (whose grown pointer is in
fact dropped by the source) is modelled by the unbounded query list.  A
printable key while `hist_search_buf == NULL` would dereference NULL in C;
that situation is unreachable from the editor loop (the CTRL_R that enters
this mode allocates the buffer first) and is modelled as `LR_ERROR`. -/
def linenoiseHistorySearchHandle (l : LState) (c : Int) :
    LinenoiseResult × LState :=
  if c = 3 ∨ c = RCS_CANCELLED then
    let l := cancelInternal l
    let l := emit l [TermOut.text [13, 10]]
    (LR_CONTINUE, resetState l)
  else if c = RCS_CLOSED then
    let l := pushFrontChar (freeHistorySearch l) c
    (LR_CONTINUE, { l with lstate := LS_READ })
  else if c = RCS_ERROR then (LR_ERROR, l)
  else if c = 127 ∨ c = 8 then
    match l.hsBuf with
    | some q =>
        if 0 < q.length then
          let q' := q.dropLast
          let l := { l with hsBuf := some q' }
          if q'.length = 0 ∧ l.hsFound then
            (LR_CONTINUE, refreshLine (setSearchPrompt l))
          else
            (LR_CONTINUE, linenoiseHistoryFindEntry l)
        else (LR_CONTINUE, l)
    | none => (LR_CONTINUE, l)
  else if c = 18 then
    match l.hsBuf with
    | none =>
        -- first CTRL_R: allocate the (empty) query and show the search prompt
        if l.history.length = 1 then
          let l := emit l [TermOut.bell]
          (LR_CONTINUE, { l with lstate := LS_READ })
        else
          let l := { l with hsCurrentIndex := l.historyIndex.toNat,
                            hsBuf := some [] }
          (LR_CONTINUE, refreshLine (setSearchPrompt l))
    | some q =>
        if 0 < q.length then
          if l.hsFound then
            let l := { l with hsCurrentIndex := l.hsCurrentIndex + 1 }
            (LR_CONTINUE, linenoiseHistoryFindEntry l)
          else
            (LR_CONTINUE, emit l [TermOut.bell])
        else (LR_CONTINUE, l)
  else if 32 ≤ c then
    match l.hsBuf with
    | some q =>
        let l := { l with hsBuf := some (q ++ [c.toNat]) }
        let wasFound := l.hsFound
        let l := linenoiseHistoryFindEntry l
        let l := if wasFound ∧ ¬l.hsFound then
            { l with hsCurrentIndex := l.hsCurrentIndex + 1 }
          else l
        (LR_CONTINUE, l)
    | none => (LR_ERROR, l)
  else
    -- any other non-text key cancels the search and is handed back
    let l := pushFrontChar (freeHistorySearch l) c
    (LR_CONTINUE, { l with lstate := LS_READ })

/-- `linenoiseHistorySearch()`: read one key and dispatch it. -/
def linenoiseHistorySearchStep (l : LState) (inp : List Int) :
    LinenoiseResult × LState × List Int :=
  let r := readCharM l inp
  let p := linenoiseHistorySearchHandle r.2.1 r.1
  (p.1, p.2, r.2.2)

/- ===================== Top-level loop ==================================== -/

/-- The `while (result == LR_CONTINUE)` loop of `linenoiseRaw()`, dispatching
on the mode.  `fuel` bounds the number of iterations; `none` means the fuel
ran out while the C loop would still be running. -/
def linenoiseRawLoop (cb : List Nat → Nat → List SingleCompletion) (hasCb : Bool) :
    Nat → LState → List Int → Option LinenoiseResult × LState × List Int
  | 0, l, inp => (none, l, inp)
  | fuel+1, l, inp =>
      let r :=
        if l.lstate = LS_COMPLETION then linenoiseCompletionStep cb l inp
        else if l.lstate = LS_HISTORY_SEARCH then linenoiseHistorySearchStep l inp
        else linenoiseEditStep hasCb l inp
      if r.1 = LR_CONTINUE then linenoiseRawLoop cb hasCb fuel r.2.1 r.2.2
      else (some r.1, r.2.1, r.2.2)

/-- `linenoiseRaw()`: a closed session returns `LR_CLOSED` at once; a
zero-sized buffer is `EINVAL`; otherwise run the editing loop.  Raw-mode and
signal-mask manipulation are terminal-attribute side effects outside the
model. -/
def linenoiseRaw (cb : List Nat → Nat → List SingleCompletion) (hasCb : Bool)
    (fuel : Nat) (l : LState) (inp : List Int) :
    Option LinenoiseResult × LState × List Int :=
  if l.isClosed then (some LR_CLOSED, l, inp)
  else if l.buflen = 0 then (some LR_ERROR, l, inp)
  else linenoiseRawLoop cb hasCb fuel l inp

/- ===================== Claim-side definitions ============================ -/

/-- The spec's session invariant
`0 ≤ cursor_pos ≤ length < buffer.capacity` and `buffer[length] == NUL`
(`0 ≤ cursor_pos` is automatic for `Nat`). -/
def EditInv (l : LState) : Prop :=
  l.pos ≤ l.len ∧ l.len < l.buflen ∧ l.mem l.len = 0

/-- A memory whose bytes are the given list followed by zeros. -/
def listMem (bs : List Nat) : Nat → Nat := fun i => bs.getD i 0

/-- The session state right after `initialize()`: a zeroed 4096-byte buffer,
80 columns, empty history, default history cap, reading state. -/
def baseState : LState :=
  { mem := fun _ => 0, buflen := 4096, len := 0, pos := 0,
    prompt := [], tempprompt := none, cols := 80,
    oldpos := 0, oldrpos := 1, maxrows := 0,
    history := [], histMax := 100, historyIndex := 0,
    mlmode := false, needsRefresh := false, isDisplayed := true,
    isCancelled := false, isClosed := false, lstate := LS_READ,
    comp := [], compInit := false, readBack := [],
    hsBuf := none, hsCurrentIndex := 0, hsFound := false, out := [] }

/-- C1's boundary state: the 4096-byte buffer holds 4095 bytes
(`length = capacity − 1`), cursor at the end, NUL in the last allocated
byte. -/
def c1State : LState :=
  { baseState with mem := fun i => if i < 4095 then 97 else 0,
                   len := 4095, pos := 4095 }

/-- C2's boundary state: same shape as `c1State` (separate constant so the
two claims stand alone), with the sentinel history entry of an active
`LS_READ` session present. -/
def c2State : LState :=
  { baseState with mem := fun i => if i < 4095 then 97 else 0,
                   len := 4095, pos := 4095, history := [[]] }

/-- What claim C1 asserts for a state `l` with `l.len = l.buflen - 1` and a
printable byte `c`: the insert widens the capacity by `LINENOISE_GROW` and
the buffer stays NUL-terminated strictly inside the capacity. -/
def ClaimC1Grows (l : LState) (c : Int) : Prop :=
  (linenoiseEditInsert l c).buflen = l.buflen + LINENOISE_GROW ∧
  (linenoiseEditInsert l c).len < (linenoiseEditInsert l c).buflen ∧
  (linenoiseEditInsert l c).mem (linenoiseEditInsert l c).len = 0

/-- C3's conclusion: dispatching CTRL_C (or the external-cancel key) in READ
mode terminates with `LR_CANCELLED` on an empty buffer; on a non-empty buffer
it continues (result `LR_CONTINUE`, state back to `LS_NEW_LINE`), empties the
buffer, echoes `^C` (bytes 94 67 appear consecutively in the raw bytes
written) and ends its output with the CRLF of `printf("\r\n")`. -/
def C3Post (hasCb : Bool) (l : LState) (c : Int) : Prop :=
  (l.len = 0 → (linenoiseEditHandle hasCb l c).1 = LR_CANCELLED) ∧
  (l.len ≠ 0 →
    (linenoiseEditHandle hasCb l c).1 = LR_CONTINUE ∧
    (linenoiseEditHandle hasCb l c).2.len = 0 ∧
    (linenoiseEditHandle hasCb l c).2.lstate = LS_NEW_LINE ∧
    [94, 67] <:+:
      flattenText ((linenoiseEditHandle hasCb l c).2.out.drop l.out.length) ∧
    (linenoiseEditHandle hasCb l c).2.out.getLast? = some (TermOut.text [13, 10]))

/-- C3 witness session: prompt `"> "`, buffer `"abc"`, cursor after the
first byte, inside READ mode. -/
def c3State : LState :=
  { baseState with prompt := strBytes "> ",
                   mem := listMem (strBytes "abc"),
                   len := 3, pos := 1, history := [[]] }

/-- The longest common first segment of two byte strings. -/
def lcp2 : List Nat → List Nat → List Nat
  | a :: as, b :: bs => if a = b then a :: lcp2 as bs else []
  | _, _ => []

/-- The longest common first segment of all the given byte strings. -/
def lcpAll : List (List Nat) → List Nat
  | [] => []
  | x :: xs => xs.foldl lcp2 x

/-- What claim C4 asserts of the first TAB in COMPLETION mode: the longest
common first segment of all candidate replacement texts is inserted into the
buffer at the cursor. -/
def ClaimC4InsertsLcp (cb : List Nat → Nat → List SingleCompletion)
    (l : LState) : Prop :=
  bufList (linenoiseCompletionHandle cb l 9).2 =
    (bufList l).take l.pos
      ++ lcpAll ((cb (cstr l) l.pos).map (fun e => e.text))
      ++ (bufList l).drop l.pos

/-- C4 state: COMPLETION mode just entered (candidate set not yet
initialized), buffer `"he"`, cursor at its end. -/
def c4State : LState :=
  { baseState with mem := listMem (strBytes "he"), len := 2, pos := 2,
                   lstate := LS_COMPLETION, history := [[]] }

/-- C4 callback: two completions, `hello` and `help` (so their longest
common first segment is `hel`). -/
def c4Callback : List Nat → Nat → List SingleCompletion := fun _ _ =>
  [⟨strBytes "hello", strBytes "hello", 5⟩, ⟨strBytes "help", strBytes "help", 4⟩]

/-- The corrected behaviour of the TAB key in COMPLETION mode with the
candidate set not yet initialized: the callback's entries become the
candidate set; with two or more candidates nothing else happens (no text is
inserted, nothing is printed); with exactly one candidate the buffer is
replaced by that candidate's replacement text with the cursor clamped to the
candidate position — and no trailing space is appended. -/
def C4Post (cb : List Nat → Nat → List SingleCompletion) (l : LState) : Prop :=
  (linenoiseCompletionHandle cb l 9).1 = LR_CONTINUE ∧
  (2 ≤ (cb (cstr l) l.pos).length →
    (linenoiseCompletionHandle cb l 9).2 =
      { l with comp := cb (cstr l) l.pos, compInit := true }) ∧
  (∀ c0, cb (cstr l) l.pos = [c0] → (0 : Nat) ∉ c0.text →
    bufList (linenoiseCompletionHandle cb l 9).2 = c0.text ∧
    (linenoiseCompletionHandle cb l 9).2.len = c0.text.length ∧
    (linenoiseCompletionHandle cb l 9).2.pos = min c0.text.length c0.pos)

/-- What claim C6 asserts of a multi-line refresh with the cursor at
end-of-buffer and `(prompt_cols + total_cols) % columns == 0`: a newline is
written and `max_rows_used` is incremented. -/
def ClaimC6 (l : LState) : Prop :=
  l.pos = l.len → ((getPrompt l).length + l.len) % l.cols = 0 →
    TermOut.text [10] ∈ refreshMultiLineOut l ∧
    (refreshMultiLine l).maxrows = l.maxrows + 1

/-- C6 counterexample state: multi-line mode, a 4-column terminal, a prompt
of exactly 4 columns, an empty buffer with the cursor at its (trivial) end. -/
def c6State : LState :=
  { baseState with mlmode := true, cols := 4, prompt := strBytes "ab> ",
                   maxrows := 1, oldrpos := 1 }

/-- The corrected C6 behaviour at exact-wrap: the refresh writes a newline
followed by a cursor-to-column-0, and `max_rows_used` becomes the incremented
row count when that exceeds its previous value. -/
def C6Post (l : LState) : Prop :=
  (∃ a b, refreshMultiLineOut l =
      a ++ [TermOut.text [10], TermOut.colStart] ++ b) ∧
  (refreshMultiLine l).maxrows =
    max l.maxrows (((getPrompt l).length + l.len + l.cols - 1) / l.cols + 1)

/-- C6 witness state: multi-line mode, 4 columns, prompt `"> "` (2 columns),
buffer `"ab"` with the cursor at the end (2 + 2 divisible by 4). -/
def c6WState : LState :=
  { baseState with mlmode := true, cols := 4, prompt := strBytes "> ",
                   mem := listMem (strBytes "ab"), len := 2, pos := 2,
                   maxrows := 1, oldrpos := 1 }

/-- `q` occurs somewhere in `s`. -/
def containsSubstr (s q : List Nat) : Prop := ∃ i, matchesAt s q i = true

/-- `i` is the rightmost occurrence of `q` in `s`. -/
def RightmostMatch (s q : List Nat) (i : Nat) : Prop :=
  matchesAt s q i = true ∧ ∀ j, matchesAt s q j = true → j ≤ i

/-- C8's conclusion for a printable key `c` extending the query `q` in
REVERSE_SEARCH mode: the query grows by the byte; then either some entry at
index `i ≥ current_index` (`i` minimal, i.e. the first entry toward older
history) contains the query — it is loaded into the buffer, the cursor lands
just after the rightmost occurrence, the temporary prompt shows the query,
`found` is set and `current_index` becomes `i` — or no entry from
`current_index` on matches, the engine beeps and clears `found`. -/
def C8Post (l : LState) (c : Int) (q : List Nat) : Prop :=
  (linenoiseHistorySearchHandle l c).1 = LR_CONTINUE ∧
  (linenoiseHistorySearchHandle l c).2.hsBuf = some (q ++ [c.toNat]) ∧
  ((∃ i off, l.hsCurrentIndex ≤ i ∧ i < l.history.length ∧
      RightmostMatch (histEntry l.history i) (q ++ [c.toNat]) off ∧
      (∀ j, l.hsCurrentIndex ≤ j → j < i →
        ¬ containsSubstr (histEntry l.history j) (q ++ [c.toNat])) ∧
      (linenoiseHistorySearchHandle l c).2.hsFound = true ∧
      bufList (linenoiseHistorySearchHandle l c).2 = histEntry l.history i ∧
      (linenoiseHistorySearchHandle l c).2.pos = off + (q ++ [c.toNat]).length ∧
      (linenoiseHistorySearchHandle l c).2.tempprompt =
        some (searchPromptRender (q ++ [c.toNat])) ∧
      (linenoiseHistorySearchHandle l c).2.hsCurrentIndex = i)
   ∨ ((∀ j, l.hsCurrentIndex ≤ j → j < l.history.length →
        ¬ containsSubstr (histEntry l.history j) (q ++ [c.toNat])) ∧
      (linenoiseHistorySearchHandle l c).2.hsFound = false ∧
      TermOut.bell ∈ (linenoiseHistorySearchHandle l c).2.out))

/-- C8 witness session: history `["echo hello", "ls -la"]` plus the active
sentinel entry, search query `"ec"` about to receive `'h'`. -/
def c8State : LState :=
  { baseState with lstate := LS_HISTORY_SEARCH,
                   history := [strBytes "echo hello", strBytes "ls -la", []],
                   hsBuf := some (strBytes "ec"), hsCurrentIndex := 0,
                   hsFound := true }

/-- What claim C9 asserts of a history `h` under cap `maxLen`: saving and
re-loading (into an empty history with the same cap) restores `h` entry for
entry. -/
def ClaimC9RoundTrip (h : List (List Nat)) (maxLen : Nat) : Prop :=
  linenoiseHistoryLoad (linenoiseHistorySave h) [] maxLen = h

/-- C10's conclusion for a closed session: the core reading routine returns
`LR_CLOSED` at once, consuming no input and leaving the state untouched; and
no step of any mode ever clears the closed flag. -/
def C10Post (cb : List Nat → Nat → List SingleCompletion) (hasCb : Bool)
    (fuel : Nat) (l : LState) (inp : List Int) : Prop :=
  linenoiseRaw cb hasCb fuel l inp = (some LR_CLOSED, l, inp) ∧
  (linenoiseEditStep hasCb l inp).2.1.isClosed = true ∧
  (linenoiseCompletionStep cb l inp).2.1.isClosed = true ∧
  (linenoiseHistorySearchStep l inp).2.1.isClosed = true

/-- C10 witness session: a session whose input was closed. -/
def c10State : LState := { baseState with isClosed := true, history := [[]] }

/-- What claim C5 asserts: the unsupported-terminal test is true exactly for
a non-TTY or a `TERM` matching the blacklist case-insensitively, and the
blacklist contains at least `dumb`, `cons25` and `emacs`. -/
def ClaimC5 : Prop :=
  (∀ istty term, isUnsupportedTerm istty term = true ↔
    (istty = false ∨
      ∃ t, term = some t ∧ ∃ u ∈ unsupported_term, strcasecmpEq t u = true)) ∧
  strBytes "dumb" ∈ unsupported_term ∧
  strBytes "cons25" ∈ unsupported_term ∧
  strBytes "emacs" ∈ unsupported_term

/- ===================== Supporting lemmas ================================= -/

theorem growLoop_ge (fuel : Nat) : ∀ n r : Nat, r - n ≤ fuel → r ≤ growLoop fuel n r := by
  induction fuel with
  | zero => intro n r h; simpa [growLoop] using Nat.le_of_sub_eq_zero (Nat.le_zero.mp h)
  | succ fuel ih =>
      intro n r h
      rw [growLoop]
      split
      · exact ih (n + LINENOISE_GROW) r (by simp [LINENOISE_GROW]; omega)
      · omega

theorem ensureBufLen_le_buflen (l : LState) (r : Nat) : r ≤ (ensureBufLen l r).buflen := by
  unfold ensureBufLen
  split
  · exact growLoop_ge r (l.buflen + LINENOISE_GROW) r (Nat.sub_le _ _)
  · omega

@[simp] theorem ensureBufLen_len (l : LState) (r : Nat) : (ensureBufLen l r).len = l.len := by
  unfold ensureBufLen; split <;> rfl

@[simp] theorem ensureBufLen_pos (l : LState) (r : Nat) : (ensureBufLen l r).pos = l.pos := by
  unfold ensureBufLen; split <;> rfl

theorem ensureBufLen_makes_room (l : LState) (_h : l.buflen ≤ l.len) :
    (ensureBufLen l (l.len + 1)).len < (ensureBufLen l (l.len + 1)).buflen := by
  have := ensureBufLen_le_buflen l (l.len + 1)
  simp only [ensureBufLen_len]
  omega


/-- C5 counterexample: the blacklist of the code has no `emacs` entry, and on
a TTY with `TERM=emacs` the test returns false — the claim requires true. -/
theorem c5_emacs_not_blacklisted :
    ¬ ClaimC5 ∧ isUnsupportedTerm true (some (strBytes "emacs")) = false :=
  ⟨fun h => absurd h.2.2.2 (by decide), by decide⟩

/-- C5 amended: the unsupported-terminal test is true exactly when the
descriptor is not a TTY or `TERM` case-insensitively equals one of the two
blacklist entries `dumb` and `cons25` (`emacs` is not on the list). -/
theorem c5_unsupported_term_amended (istty : Bool) (term : Option (List Nat)) :
    isUnsupportedTerm istty term = true ↔
      (istty = false ∨ ∃ t, term = some t ∧
        (strcasecmpEq t (strBytes "dumb") = true ∨
         strcasecmpEq t (strBytes "cons25") = true)) := by
  cases istty <;> cases term <;>
    simp [isUnsupportedTerm, unsupported_term, List.any_eq_true]

/- ===================== Claim C7 theorems ================================= -/

/-- C7: in the CSI parameter state (reached by ESC `[`), the parameter byte
0x3F and the intermediate byte 0x2F are rejected (`ansiAddCharacter` returns
false, aborting the sequence with the state untouched), while e.g. 0x3E is
accepted — the claim says every byte of 0x30–0x3F is accepted as a parameter
byte and every byte of 0x20–0x2F as an intermediate byte, with none aborting. -/
theorem c7_csi_param_rejects_0x3f :
    (ansiAddCharacter (ansiAddCharacter ansiInit 27).2 91).2.ansi_state
        = AES_CSI_PARAMETER ∧
    (ansiAddCharacter (ansiAddCharacter (ansiAddCharacter ansiInit 27).2 91).2 0x3F).1
        = false ∧
    (ansiAddCharacter (ansiAddCharacter (ansiAddCharacter ansiInit 27).2 91).2 0x3F).2
        = (ansiAddCharacter (ansiAddCharacter ansiInit 27).2 91).2 ∧
    (ansiAddCharacter (ansiAddCharacter (ansiAddCharacter ansiInit 27).2 91).2 0x2F).1
        = false ∧
    (ansiAddCharacter (ansiAddCharacter (ansiAddCharacter ansiInit 27).2 91).2 0x3E).1
        = true ∧
    (ansiAddCharacter (ansiAddCharacter (ansiAddCharacter ansiInit 27).2 91).2 0x3E).2.ansi_state
        = AES_CSI_PARAMETER := by decide

/- ===================== Claim C1 theorems ================================= -/

/-- C1: at `length == capacity − 1` (4095 bytes in the 4096-byte buffer) the
insert of a printable byte does not grow the buffer at all: the capacity
stays 4096 while `len` becomes 4096 — the NUL terminator lands at offset
4096, one past the end of the allocation, contradicting the claimed growth
by the fixed increment with in-capacity NUL termination. -/
theorem c1_insert_at_capacity_minus_one :
    c1State.len = c1State.buflen - 1 ∧
    EditInv c1State ∧
    ¬ ClaimC1Grows c1State 98 ∧
    (linenoiseEditInsert c1State 98).buflen = 4096 ∧
    (linenoiseEditInsert c1State 98).len = 4096 := by
  unfold EditInv ClaimC1Grows
  decide

/- ===================== Claim C2 theorems ================================= -/

/-- C2: a session satisfying the invariant
`0 ≤ cursor_pos ≤ length < capacity` with `buffer[length] == NUL`
(4095 bytes in the 4096-byte buffer) violates it after the editor loop
dispatches one printable-insert key: `length` becomes equal to the capacity. -/
theorem c2_invariant_broken_by_insert :
    EditInv c2State ∧
    c2State.lstate = LS_READ ∧
    ¬ EditInv (linenoiseEditStep false c2State [97]).2.1 := by
  unfold EditInv
  decide

/- ===================== Claim C9 counterexample =========================== -/

/-- C9 counterexample: a history whose single entry `"a\nb"` contains an
embedded LF does not round-trip — the saved file reads back as the two
entries `"a"` and `"b"`. -/
theorem c9_roundtrip_fails_embedded_newline :
    ¬ ClaimC9RoundTrip [[97, 10, 98]] 100 ∧
    linenoiseHistoryLoad (linenoiseHistorySave [[97, 10, 98]]) [] 100
      = [[97], [98]] := by
  unfold ClaimC9RoundTrip
  decide

/- ===================== Claim C9 amended ================================== -/

theorem fgetsChunk_line (e : List Nat) : ∀ (n : Nat) (rest : List Nat),
    10 ∉ e → e.length < n →
    fgetsChunk n (e ++ 10 :: rest) = (e ++ [10], rest) := by
  induction e with
  | nil =>
      intro n rest _ hn
      match n, hn with
      | n+1, _ => simp [fgetsChunk]
  | cons a e ih =>
      intro n rest hmem hn
      match n, hn with
      | n+1, hn =>
          have ha : a ≠ 10 := fun h => hmem (by simp [h])
          have : fgetsChunk n (e ++ 10 :: rest) = (e ++ [10], rest) :=
            ih n rest (fun h => hmem (by simp [h])) (by simpa using hn)
          simp [fgetsChunk, ha, this]

theorem stripCRLF_line (e : List Nat) (h10 : 10 ∉ e) (h13 : 13 ∉ e) :
    stripCRLF (e ++ [10]) = e := by
  have hc : (e ++ [10]).contains 13 = false := by
    simp [List.contains_eq_any_beq, List.any_eq_false]
    exact h13
  unfold stripCRLF
  rw [hc]
  simp only [Bool.false_eq_true, if_false]
  rw [List.takeWhile_append]
  have : e.takeWhile (· != 10) = e := by
    apply List.takeWhile_eq_self_iff.mpr ?_
    intro a ha
    simp only [bne_iff_ne, ne_eq]
    intro h; exact h10 (h ▸ ha)
  simp [this]

theorem historyAdd_append (acc : List (List Nat)) (maxLen : Nat) (x : List Nat)
    (h : acc.length < maxLen) :
    linenoiseHistoryAdd acc maxLen x = acc ++ [x] := by
  unfold linenoiseHistoryAdd
  rw [if_neg (by omega), if_neg (by omega)]

theorem historyLoadLoop_cons (fuel : Nat) (file : List Nat)
    (acc : List (List Nat)) (maxLen : Nat) (hne : file ≠ []) :
    historyLoadLoop (fuel + 1) file acc maxLen =
      historyLoadLoop fuel (fgetsChunk 4095 file).2
        (linenoiseHistoryAdd acc maxLen (stripCRLF (fgetsChunk 4095 file).1)) maxLen := by
  match file, hne with
  | b :: rest, _ => rfl

theorem historyLoadLoop_save (h : List (List Nat)) : ∀ (acc : List (List Nat))
    (fuel maxLen : Nat),
    (∀ e ∈ h, e.length ≤ 4094) → (∀ e ∈ h, 10 ∉ e ∧ 13 ∉ e) →
    acc.length + h.length ≤ maxLen →
    (linenoiseHistorySave h).length ≤ fuel →
    historyLoadLoop fuel (linenoiseHistorySave h) acc maxLen = acc ++ h := by
  induction h with
  | nil =>
      intro acc fuel maxLen _ _ _ _
      have : linenoiseHistorySave [] = [] := rfl
      rw [this]
      cases fuel <;> simp [historyLoadLoop]
  | cons e t ih =>
      intro acc fuel maxLen hlen hbytes hcap hfuel
      have hsave : linenoiseHistorySave (e :: t) =
          e ++ 10 :: linenoiseHistorySave t := by
        simp [linenoiseHistorySave]
      rw [hsave] at hfuel ⊢
      have hlenfile : e.length + 1 + (linenoiseHistorySave t).length ≤ fuel := by
        simpa [Nat.add_comm, Nat.add_left_comm, Nat.add_assoc] using hfuel
      cases fuel with
      | zero => omega
      | succ fuel =>
          rw [historyLoadLoop_cons fuel _ acc maxLen (by simp)]
          rw [fgetsChunk_line e 4095 (linenoiseHistorySave t)
                ((hbytes e (by simp)).1)
                (by have := hlen e (by simp); omega)]
          simp only
          rw [stripCRLF_line e ((hbytes e (by simp)).1) ((hbytes e (by simp)).2)]
          rw [historyAdd_append acc maxLen e (by simp at hcap; omega)]
          rw [ih (acc ++ [e]) fuel maxLen
                (fun x hx => hlen x (by simp [hx]))
                (fun x hx => hbytes x (by simp [hx]))
                (by simp at hcap ⊢; omega)
                (by omega)]
          simp

/-- C9 amended: saving a history and loading the file back into an empty
history with the same cap restores the history entry for entry, provided
every entry fits the 4096-byte line buffer of the loader (length at most
4094) and contains no NUL, LF or CR byte (entries are C strings, so NUL
cannot occur; an embedded LF or CR splits resp. truncates the entry, see the
counterexample), and the entry count does not exceed the cap (which holds
for any history the library maintains). -/
theorem c9_roundtrip_amended (h : List (List Nat)) (maxLen : Nat)
    (hlen : ∀ e ∈ h, e.length ≤ 4094)
    (hbytes : ∀ e ∈ h, 10 ∉ e ∧ 13 ∉ e)
    (hcap : h.length ≤ maxLen) :
    linenoiseHistoryLoad (linenoiseHistorySave h) [] maxLen = h := by
  unfold linenoiseHistoryLoad
  simpa using historyLoadLoop_save h [] (linenoiseHistorySave h).length maxLen
    hlen hbytes (by simpa using hcap) le_rfl

/-- C9 amended, witness: a two-entry history round-trips. -/
theorem c9_roundtrip_amended_witness :
    linenoiseHistoryLoad
        (linenoiseHistorySave [strBytes "ls -la", strBytes "echo hi"]) [] 100
      = [strBytes "ls -la", strBytes "echo hi"] :=
  c9_roundtrip_amended [strBytes "ls -la", strBytes "echo hi"] 100
    (by decide) (by decide) (by decide)

/- ===================== Claim C6 theorems ================================= -/

/-- C6 counterexample: a multi-line refresh with the cursor at end-of-buffer
(`pos = len = 0`) and `(prompt_cols + total_cols) % columns = 0` (prompt of
exactly 4 columns on a 4-column terminal) writes no newline and leaves
`max_rows_used` unchanged — the code additionally requires `pos != 0`. -/
theorem c6_no_newline_at_pos_zero : ¬ ClaimC6 c6State := by
  unfold ClaimC6
  decide

/-- C6 amended: when additionally the cursor offset is non-zero, the
multi-line refresh writes the newline followed by a cursor-to-column-0, and
`max_rows_used` becomes the incremented row count when that exceeds its
previous value. -/
theorem c6_wrap_newline_amended (l : LState)
    (hpos : l.pos = l.len) (hpos0 : l.pos ≠ 0)
    (hmod : ((getPrompt l).length + l.pos) % l.cols = 0) :
    C6Post l := by
  have hnl : (l.pos ≠ 0 ∧ l.pos = l.len ∧
      (l.pos + (getPrompt l).length) % l.cols = 0) :=
    ⟨hpos0, hpos, by rw [Nat.add_comm]; exact hmod⟩
  constructor
  · refine ⟨(if l.maxrows - l.oldrpos > 0
          then [TermOut.moveDown (l.maxrows - l.oldrpos)] else [])
        ++ (List.replicate (l.maxrows - 1)
              [TermOut.colStart, TermOut.eraseEOL, TermOut.moveUp 1]).flatten
        ++ [TermOut.colStart, TermOut.eraseEOL]
        ++ (if 0 < (getPrompt l).length then [TermOut.text (getPrompt l)] else [])
        ++ [TermOut.text (memRange l.mem 0 l.len)],
      (if ((getPrompt l).length + l.len + l.cols - 1) / l.cols + 1
            - ((getPrompt l).length + l.pos + l.cols) / l.cols > 0
        then [TermOut.moveUp (((getPrompt l).length + l.len + l.cols - 1) / l.cols + 1
            - ((getPrompt l).length + l.pos + l.cols) / l.cols)] else [])
        ++ [TermOut.setCol (1 + ((getPrompt l).length + l.pos) % l.cols)], ?_⟩
    simp only [refreshMultiLineOut]
    rw [if_pos hnl, if_pos hnl]
    simp [List.append_assoc]
  · simp only [refreshMultiLine, refreshMultiLineMaxrows]
    rw [if_pos hnl]
    split <;> split <;> omega

/-- C6 amended, witness: prompt `"> "` (2 columns), buffer `"ab"`, cursor at
the end, 4-column terminal. -/
theorem c6_wrap_newline_amended_witness : C6Post c6WState :=
  c6_wrap_newline_amended c6WState rfl (by decide) (by decide)

/- ============ Projection lemmas for the display refresh ================== -/

@[simp] theorem refreshLine_mem (l : LState) : (refreshLine l).mem = l.mem := by
  unfold refreshLine refreshMultiLine; split <;> rfl

@[simp] theorem refreshLine_buflen (l : LState) : (refreshLine l).buflen = l.buflen := by
  unfold refreshLine refreshMultiLine; split <;> rfl

@[simp] theorem refreshLine_len (l : LState) : (refreshLine l).len = l.len := by
  unfold refreshLine refreshMultiLine; split <;> rfl

@[simp] theorem refreshLine_pos (l : LState) : (refreshLine l).pos = l.pos := by
  unfold refreshLine refreshMultiLine; split <;> rfl

@[simp] theorem refreshLine_prompt (l : LState) : (refreshLine l).prompt = l.prompt := by
  unfold refreshLine refreshMultiLine; split <;> rfl

@[simp] theorem refreshLine_tempprompt (l : LState) :
    (refreshLine l).tempprompt = l.tempprompt := by
  unfold refreshLine refreshMultiLine; split <;> rfl

@[simp] theorem refreshLine_cols (l : LState) : (refreshLine l).cols = l.cols := by
  unfold refreshLine refreshMultiLine; split <;> rfl

@[simp] theorem refreshLine_history (l : LState) : (refreshLine l).history = l.history := by
  unfold refreshLine refreshMultiLine; split <;> rfl

@[simp] theorem refreshLine_histMax (l : LState) : (refreshLine l).histMax = l.histMax := by
  unfold refreshLine refreshMultiLine; split <;> rfl

@[simp] theorem refreshLine_historyIndex (l : LState) :
    (refreshLine l).historyIndex = l.historyIndex := by
  unfold refreshLine refreshMultiLine; split <;> rfl

@[simp] theorem refreshLine_mlmode (l : LState) : (refreshLine l).mlmode = l.mlmode := by
  unfold refreshLine refreshMultiLine; split <;> rfl

@[simp] theorem refreshLine_isClosed (l : LState) : (refreshLine l).isClosed = l.isClosed := by
  unfold refreshLine refreshMultiLine; split <;> rfl

@[simp] theorem refreshLine_isCancelled (l : LState) :
    (refreshLine l).isCancelled = l.isCancelled := by
  unfold refreshLine refreshMultiLine; split <;> rfl

@[simp] theorem refreshLine_lstate (l : LState) : (refreshLine l).lstate = l.lstate := by
  unfold refreshLine refreshMultiLine; split <;> rfl

@[simp] theorem refreshLine_comp (l : LState) : (refreshLine l).comp = l.comp := by
  unfold refreshLine refreshMultiLine; split <;> rfl

@[simp] theorem refreshLine_compInit (l : LState) : (refreshLine l).compInit = l.compInit := by
  unfold refreshLine refreshMultiLine; split <;> rfl

@[simp] theorem refreshLine_readBack (l : LState) : (refreshLine l).readBack = l.readBack := by
  unfold refreshLine refreshMultiLine; split <;> rfl

@[simp] theorem refreshLine_hsBuf (l : LState) : (refreshLine l).hsBuf = l.hsBuf := by
  unfold refreshLine refreshMultiLine; split <;> rfl

@[simp] theorem refreshLine_hsCurrentIndex (l : LState) :
    (refreshLine l).hsCurrentIndex = l.hsCurrentIndex := by
  unfold refreshLine refreshMultiLine; split <;> rfl

@[simp] theorem refreshLine_hsFound (l : LState) : (refreshLine l).hsFound = l.hsFound := by
  unfold refreshLine refreshMultiLine; split <;> rfl

theorem refreshLine_out_single (l : LState) (h : l.mlmode = false) :
    (refreshLine l).out = l.out ++ refreshSingleLineOut l := by
  unfold refreshLine
  rw [h]
  rfl

/- ============ memRange lemmas =========================================== -/

@[simp] theorem memRange_length (m : Nat → Nat) (s n : Nat) :
    (memRange m s n).length = n := by simp [memRange]

theorem memRange_getElem (m : Nat → Nat) (s n i : Nat)
    (h : i < (memRange m s n).length) :
    (memRange m s n)[i] = m (s + i) := by
  simp [memRange]

theorem memRange_copyFun (e : List Nat) (f : Nat → Nat)
    (hf : ∀ i, i < e.length → f i = e.getD i 0) :
    memRange f 0 e.length = e := by
  apply List.ext_getElem (by simp)
  intro i h1 h2
  rw [memRange_getElem f 0 e.length i h1]
  rw [Nat.zero_add, hf i h2, List.getD_eq_getElem e 0 h2]

theorem memRange_split (m : Nat → Nat) (s a b : Nat) :
    memRange m s (a + b) = memRange m s a ++ memRange m (s + a) b := by
  unfold memRange
  rw [List.range_add, List.map_append, List.map_map]
  congr 1
  apply List.map_congr_left
  intro i _
  simp [Nat.add_comm, Nat.add_left_comm, Nat.add_assoc]

/- ===================== Claim C4 theorems ================================= -/

theorem takeWhile_ne_zero_eq_self (t : List Nat) (h : (0:Nat) ∉ t) :
    t.takeWhile (· != 0) = t := by
  apply List.takeWhile_eq_self_iff.mpr
  intro a ha
  simp only [bne_iff_ne, ne_eq]
  intro h0; exact h (h0 ▸ ha)

theorem completeLine_single (l : LState) (c0 : SingleCompletion)
    (hc : l.comp = [c0]) (hnul : (0:Nat) ∉ c0.text) :
    bufList (completeLine l) = c0.text ∧
    (completeLine l).len = c0.text.length ∧
    (completeLine l).pos = min c0.text.length c0.pos := by
  have ht : c0.text.takeWhile (· != 0) = c0.text := takeWhile_ne_zero_eq_self _ hnul
  unfold completeLine
  rw [hc]
  simp only [ht]
  refine ⟨?_, by simp, by simp⟩
  simp only [bufList, refreshLine_mem, refreshLine_len]
  exact memRange_copyFun c0.text _ (fun i hi => by simp [hi])

/-- C4 counterexample: in COMPLETION mode with two candidates (`hello` and
`help`, common first segment `hel`) over the buffer `"he"`, the first TAB
leaves the buffer at `"he"` — no longest-common-prefix text is inserted at
the cursor. -/
theorem c4_first_tab_inserts_no_lcp :
    ¬ ClaimC4InsertsLcp c4Callback c4State ∧
    bufList (linenoiseCompletionHandle c4Callback c4State 9).2 = strBytes "he" := by
  unfold ClaimC4InsertsLcp
  decide

/-- C4 amended: on the first TAB in COMPLETION mode the callback's entries
become the candidate set; with two or more candidates nothing further
happens — the buffer, cursor and screen are untouched (the sorted listing
only appears on the following TAB) — and with exactly one candidate the
buffer is replaced by that candidate's replacement text with the cursor
clamped to the candidate's position; no trailing space is appended and no
common-prefix computation takes place. -/
theorem c4_completion_amended (cb : List Nat → Nat → List SingleCompletion)
    (l : LState) (hInit : l.compInit = false) : C4Post cb l := by
  unfold C4Post
  simp only [linenoiseCompletionHandle]
  rw [if_neg (show ¬((9:Int) = RCS_ERROR) by unfold RCS_ERROR; omega)]
  simp only [if_true]
  rw [hInit]
  rw [if_pos (show ¬(false = true) ∨ l.comp.length = 1 from Or.inl (by simp))]
  have hfree : cstr (freeCompletions l) = cstr l := rfl
  have hfreepos : (freeCompletions l).pos = l.pos := rfl
  rw [hfree, hfreepos]
  split
  · -- fewer than two candidates: completeLine runs
    rename_i hlt
    have hlt2 : (cb (cstr l) l.pos).length < 2 := hlt
    refine ⟨rfl, fun h2 => absurd h2 (by omega), ?_⟩
    intro c0 hc hnul
    exact completeLine_single _ c0 hc hnul
  · -- two or more candidates: only the candidate set changes
    rename_i hge
    have hge2 : ¬ (cb (cstr l) l.pos).length < 2 := hge
    refine ⟨rfl, fun _ => rfl, ?_⟩
    intro c0 hc _
    have h1 : (cb (cstr l) l.pos).length = 1 := by rw [hc]; rfl
    exact absurd h1 (by omega)

/-- C4 amended, witness: the concrete two-candidate session of the
counterexample discharges the hypothesis of the amended theorem. -/
theorem c4_completion_amended_witness : C4Post c4Callback c4State :=
  c4_completion_amended c4Callback c4State rfl

/- ===================== Claim C3 supporting lemmas ======================== -/

@[simp] theorem flattenText_nil : flattenText [] = [] := rfl

theorem flattenText_append (a b : List TermOut) :
    flattenText (a ++ b) = flattenText a ++ flattenText b := by
  induction a with
  | nil => rfl
  | cons x rest ih => cases x <;> simp [flattenText, ih]

@[simp] theorem setTempPrompt_len (l : LState) (t : Option (List Nat)) :
    (setTempPrompt l t).len = l.len := by
  unfold setTempPrompt; split <;> rfl

@[simp] theorem setTempPrompt_out (l : LState) (t : Option (List Nat)) :
    (setTempPrompt l t).out = l.out := by
  unfold setTempPrompt; split <;> rfl

@[simp] theorem setTempPrompt_lstate (l : LState) (t : Option (List Nat)) :
    (setTempPrompt l t).lstate = l.lstate := by
  unfold setTempPrompt; split <;> rfl

@[simp] theorem freeHistorySearch_len (l : LState) :
    (freeHistorySearch l).len = l.len := by
  unfold freeHistorySearch; split <;> simp

@[simp] theorem freeHistorySearch_out (l : LState) :
    (freeHistorySearch l).out = l.out := by
  unfold freeHistorySearch; split <;> simp

@[simp] theorem freeHistorySearch_lstate (l : LState) :
    (freeHistorySearch l).lstate = l.lstate := by
  unfold freeHistorySearch; split <;> simp

@[simp] theorem resetState_len (l : LState) : (resetState l).len = l.len := by
  unfold resetState
  split
  · split
    · simp [freeCompletions]
    · split <;> simp
  · rfl

@[simp] theorem resetState_out (l : LState) : (resetState l).out = l.out := by
  unfold resetState
  split
  · split
    · simp [freeCompletions]
    · split <;> simp
  · rfl

theorem resetState_lstate (l : LState) : (resetState l).lstate = LS_NEW_LINE := by
  unfold resetState
  split
  · rfl
  · rename_i h
    simpa using h

@[simp] theorem ensureBufLen_out (l : LState) (r : Nat) :
    (ensureBufLen l r).out = l.out := by unfold ensureBufLen; split <;> rfl

@[simp] theorem ensureBufLen_prompt (l : LState) (r : Nat) :
    (ensureBufLen l r).prompt = l.prompt := by unfold ensureBufLen; split <;> rfl

@[simp] theorem ensureBufLen_tempprompt (l : LState) (r : Nat) :
    (ensureBufLen l r).tempprompt = l.tempprompt := by unfold ensureBufLen; split <;> rfl

@[simp] theorem ensureBufLen_mlmode (l : LState) (r : Nat) :
    (ensureBufLen l r).mlmode = l.mlmode := by unfold ensureBufLen; split <;> rfl

@[simp] theorem ensureBufLen_cols (l : LState) (r : Nat) :
    (ensureBufLen l r).cols = l.cols := by unfold ensureBufLen; split <;> rfl

@[simp] theorem ensureBufLen_lstate (l : LState) (r : Nat) :
    (ensureBufLen l r).lstate = l.lstate := by unfold ensureBufLen; split <;> rfl

@[simp] theorem ensureBufLen_history (l : LState) (r : Nat) :
    (ensureBufLen l r).history = l.history := by unfold ensureBufLen; split <;> rfl

@[simp] theorem ensureBufLen_histMax (l : LState) (r : Nat) :
    (ensureBufLen l r).histMax = l.histMax := by unfold ensureBufLen; split <;> rfl

@[simp] theorem ensureBufLen_historyIndex (l : LState) (r : Nat) :
    (ensureBufLen l r).historyIndex = l.historyIndex := by unfold ensureBufLen; split <;> rfl

@[simp] theorem ensureBufLen_isClosed (l : LState) (r : Nat) :
    (ensureBufLen l r).isClosed = l.isClosed := by unfold ensureBufLen; split <;> rfl

@[simp] theorem ensureBufLen_hsBuf (l : LState) (r : Nat) :
    (ensureBufLen l r).hsBuf = l.hsBuf := by unfold ensureBufLen; split <;> rfl

@[simp] theorem ensureBufLen_hsCurrentIndex (l : LState) (r : Nat) :
    (ensureBufLen l r).hsCurrentIndex = l.hsCurrentIndex := by unfold ensureBufLen; split <;> rfl

@[simp] theorem ensureBufLen_hsFound (l : LState) (r : Nat) :
    (ensureBufLen l r).hsFound = l.hsFound := by unfold ensureBufLen; split <;> rfl

theorem insertCore_fastpath (l : LState) (c : Int)
    (hpos : l.len = l.pos) (hml : l.mlmode = false)
    (hcols : l.prompt.length + (l.len + 1) < l.cols) :
    linenoiseEditInsertCore l c = emit { l with
      mem := fun i => if i = l.len + 1 then 0
                      else if i = l.pos then c.toNat
                      else l.mem i,
      pos := l.pos + 1, len := l.len + 1 } [TermOut.text [c.toNat]] := by
  unfold linenoiseEditInsertCore
  rw [if_pos hpos]
  rw [if_pos (show _ ∧ _ from ⟨by simp [hml], hcols⟩)]

theorem insert_fastpath (l : LState) (c : Int) (hc : 32 ≤ c)
    (hpos : l.pos = l.len) (hml : l.mlmode = false)
    (hcols : l.prompt.length + l.len + 1 < l.cols) :
    (linenoiseEditInsert l c).out = l.out ++ [TermOut.text [c.toNat]] ∧
    (linenoiseEditInsert l c).len = l.len + 1 ∧
    (linenoiseEditInsert l c).pos = l.len + 1 ∧
    (linenoiseEditInsert l c).prompt = l.prompt ∧
    (linenoiseEditInsert l c).mlmode = false ∧
    (linenoiseEditInsert l c).cols = l.cols ∧
    (linenoiseEditInsert l c).lstate = l.lstate ∧
    (linenoiseEditInsert l c).history = l.history ∧
    (linenoiseEditInsert l c).histMax = l.histMax := by
  unfold linenoiseEditInsert
  rw [if_pos hc]
  split
  · rw [insertCore_fastpath l c hpos.symm hml (by omega)]
    simp [emit, hpos, hml]
  · have h2 : (ensureBufLen l (l.len + 1)).len < (ensureBufLen l (l.len + 1)).buflen := by
      have := ensureBufLen_le_buflen l (l.len + 1)
      simp only [ensureBufLen_len]
      omega
    rw [if_pos h2]
    rw [insertCore_fastpath (ensureBufLen l (l.len + 1)) c
          (by simp [hpos]) (by simp [hml])
          (by simp only [ensureBufLen_prompt, ensureBufLen_len, ensureBufLen_cols]; omega)]
    simp [emit, hpos, hml]

theorem flattenText_refreshSingle (l : LState)
    (hd : (getPrompt l).length + l.pos < l.cols)
    (hlen : (getPrompt l).length + l.len ≤ l.cols) :
    flattenText (refreshSingleLineOut l) = getPrompt l ++ memRange l.mem 0 l.len := by
  simp only [refreshSingleLineOut]
  rw [if_neg (show ¬ l.cols ≤ (getPrompt l).length + l.pos by omega)]
  simp only [Nat.sub_zero]
  rw [if_neg (show ¬ (getPrompt l).length + l.len > l.cols by omega)]
  by_cases hp : 0 < (getPrompt l).length
  · rw [if_pos hp]
    by_cases hq : l.pos + (getPrompt l).length ≠ 0
    · rw [if_pos hq]
      simp [flattenText_append, flattenText]
    · rw [if_neg hq]
      simp [flattenText_append, flattenText]
  · rw [if_neg hp]
    have hpe : getPrompt l = [] := by
      cases h : getPrompt l with
      | nil => rfl
      | cons a t => rw [h] at hp; simp at hp
    by_cases hq : l.pos + (getPrompt l).length ≠ 0
    · rw [if_pos hq]
      simp [flattenText_append, flattenText, hpe]
    · rw [if_neg hq]
      simp [flattenText_append, flattenText, hpe]

theorem memRange_two (m : Nat → Nat) (s : Nat) :
    memRange m s 2 = [m s, m (s + 1)] := by
  simp [memRange, List.range_succ]

theorem memRange_one (m : Nat → Nat) (s : Nat) :
    memRange m s 1 = [m s] := by
  simp [memRange, List.range_succ]

theorem cancelInternal_spec (l : LState)
    (hml : l.mlmode = false) (htemp : l.tempprompt = none)
    (hpos : l.pos ≤ l.len) (hcols : l.prompt.length + l.len + 2 < l.cols) :
    (cancelInternal l).len = 0 ∧
    (cancelInternal l).lstate = l.lstate ∧
    ∃ E, (cancelInternal l).out = l.out ++ E ∧
      [94, 67] <:+: flattenText E := by
  have hpr : getPrompt l = l.prompt := by unfold getPrompt; rw [htemp]; rfl
  unfold cancelInternal
  rcases (show l.pos + 2 ≤ l.len ∨ l.pos + 1 = l.len ∨ l.pos = l.len by omega)
    with hA | hB | hC
  · -- overwrite ^C at the cursor, one refresh
    rw [if_pos hA]
    refine ⟨rfl, by simp [resetOnNewline], ?_⟩
    refine ⟨refreshSingleLineOut { l with
        mem := fun i => if i = l.pos then 94 else if i = l.pos + 1 then 67 else l.mem i,
        pos := l.len }, ?_, ?_⟩
    · simp only [resetOnNewline]
      rw [refreshLine_out_single _ (by simp [hml])]
    · rw [flattenText_refreshSingle _ (by simp [getPrompt, htemp]; omega)
            (by simp [getPrompt, htemp]; omega)]
      have hsplit : l.len = l.pos + (2 + (l.len - l.pos - 2)) := by omega
      simp only []
      rw [show memRange (fun i => if i = l.pos then 94
            else if i = l.pos + 1 then 67 else l.mem i) 0 l.len
          = memRange (fun i => if i = l.pos then 94
              else if i = l.pos + 1 then 67 else l.mem i) 0
                (l.pos + (2 + (l.len - l.pos - 2))) from by rw [← hsplit]]
      rw [memRange_split, memRange_split, memRange_two]
      refine ⟨getPrompt { l with
          mem := fun i => if i = l.pos then 94 else if i = l.pos + 1 then 67 else l.mem i,
          pos := l.len }
        ++ memRange (fun i => if i = l.pos then 94
            else if i = l.pos + 1 then 67 else l.mem i) 0 l.pos,
        memRange (fun i => if i = l.pos then 94
            else if i = l.pos + 1 then 67 else l.mem i) (0 + l.pos + 2)
          (l.len - l.pos - 2), ?_⟩
      simp [Nat.add_comm]
  · -- write ^ at the cursor, refresh, then fast-path insert of C
    rw [if_neg (by omega), if_pos hB]
    have hfast := insert_fastpath
      (refreshLine { l with mem := fun i => if i = l.pos then 94 else l.mem i,
                            pos := l.len }) 67
      (by omega) (by simp) (by simp [hml]) (by simp; omega)
    refine ⟨rfl, ?_, ?_⟩
    · simp only [resetOnNewline]
      rw [hfast.2.2.2.2.2.2.1]
      simp
    · refine ⟨refreshSingleLineOut { l with
          mem := fun i => if i = l.pos then 94 else l.mem i, pos := l.len }
        ++ [TermOut.text [67]], ?_, ?_⟩
      · simp only [resetOnNewline]
        rw [hfast.1]
        rw [refreshLine_out_single _ (by simp [hml])]
        simp
      · rw [flattenText_append]
        rw [flattenText_refreshSingle _ (by simp [getPrompt, htemp]; omega)
              (by simp [getPrompt, htemp]; omega)]
        have hsplit : l.len = l.pos + 1 := hB.symm
        simp only []
        rw [show memRange (fun i => if i = l.pos then 94 else l.mem i) 0 l.len
            = memRange (fun i => if i = l.pos then 94 else l.mem i) 0 (l.pos + 1) from by
              rw [← hsplit]]
        rw [memRange_split, memRange_one]
        refine ⟨getPrompt { l with
            mem := fun i => if i = l.pos then 94 else l.mem i, pos := l.len }
          ++ memRange (fun i => if i = l.pos then 94 else l.mem i) 0 l.pos, [], ?_⟩
        simp [flattenText]
  · -- cursor at the end: two fast-path inserts
    rw [if_neg (by omega), if_neg (by omega)]
    have h1 := insert_fastpath l 94 (by omega) hC hml (by omega)
    have h2 := insert_fastpath (linenoiseEditInsert l 94) 67 (by omega)
      (by rw [h1.2.1, h1.2.2.1]) h1.2.2.2.2.1
      (by rw [h1.2.2.2.1, h1.2.1, h1.2.2.2.2.2.1]; omega)
    refine ⟨rfl, ?_, ?_⟩
    · simp only [resetOnNewline]
      rw [h2.2.2.2.2.2.2.1, h1.2.2.2.2.2.2.1]
    · refine ⟨[TermOut.text [(94:Int).toNat], TermOut.text [(67:Int).toNat]], ?_, ?_⟩
      · simp only [resetOnNewline]
        rw [h2.1, h1.1]
        simp
      · refine ⟨[], [], by simp [flattenText]⟩

/-- C3: in READ mode (single-line display, no temporary prompt, a line short
enough not to scroll horizontally), dispatching CTRL_C — or the CANCELLED
key produced by the external cancel flag — terminates with `LR_CANCELLED`
when the buffer is empty; when it is not empty the engine echoes `^C`,
prints CRLF, empties the buffer and goes back to reading a new line
(`LR_CONTINUE` with the state machine in `LS_NEW_LINE`). -/
theorem c3_ctrl_c_read_mode (hasCb : Bool) (l : LState) (c : Int)
    (hc : c = 3 ∨ c = RCS_CANCELLED)
    (_hread : l.lstate = LS_READ)
    (hml : l.mlmode = false) (htemp : l.tempprompt = none)
    (hpos : l.pos ≤ l.len)
    (hcols : l.prompt.length + l.len + 2 < l.cols) :
    C3Post hasCb l c := by
  have hcv : c = 3 ∨ c = -3 := by
    rcases hc with h | h
    · exact Or.inl h
    · exact Or.inr (by rw [h]; rfl)
  unfold C3Post
  simp only [linenoiseEditHandle]
  rw [if_neg (show ¬ c = RCS_CLOSED by unfold RCS_CLOSED; omega)]
  rw [if_neg (show ¬ c = RCS_ERROR by unfold RCS_ERROR; omega)]
  rw [if_neg (show ¬ c = (13:Int) by omega)]
  rw [if_pos (show c = RCS_CANCELLED ∨ c = (3:Int) by
    unfold RCS_CANCELLED; rcases hcv with h | h
    · exact Or.inr h
    · exact Or.inl (by omega))]
  obtain ⟨hlen0, hlst, E, hE, hinf⟩ :=
    cancelInternal_spec l hml htemp hpos hcols
  constructor
  · intro h0
    rw [if_pos h0]
  · intro hne
    rw [if_neg hne]
    refine ⟨rfl, ?_, ?_, ?_, ?_⟩
    · simp [emit, hlen0]
    · simp [emit, resetState_lstate]
    · simp only [emit, resetState_out, hE, List.append_assoc]
      rw [List.drop_left]
      obtain ⟨s, t, hst⟩ := hinf
      refine ⟨s, t ++ flattenText [TermOut.text [13, 10]], ?_⟩
      rw [flattenText_append, ← hst]
      simp [List.append_assoc]
    · simp only [emit, resetState_out, hE]
      exact List.getLast?_concat _

/-- C3 witness: prompt `"> "`, buffer `"abc"`, cursor inside the line,
CTRL_C pressed. -/
theorem c3_ctrl_c_read_mode_witness : C3Post false c3State 3 :=
  c3_ctrl_c_read_mode false c3State 3 (Or.inl rfl) rfl rfl rfl
    (by decide) (by decide)

/- ===================== Claim C10 supporting lemmas ======================= -/

@[simp] theorem emit_isClosed (l : LState) (es : List TermOut) :
    (emit l es).isClosed = l.isClosed := rfl

@[simp] theorem resetOnNewline_isClosed (l : LState) :
    (resetOnNewline l).isClosed = l.isClosed := rfl

@[simp] theorem clearScreen_isClosed (l : LState) :
    (clearScreen l).isClosed = l.isClosed := rfl

@[simp] theorem setTempPrompt_isClosed (l : LState) (t : Option (List Nat)) :
    (setTempPrompt l t).isClosed = l.isClosed := by
  unfold setTempPrompt; split <;> rfl

@[simp] theorem freeCompletions_isClosed (l : LState) :
    (freeCompletions l).isClosed = l.isClosed := rfl

@[simp] theorem freeHistorySearch_isClosed (l : LState) :
    (freeHistorySearch l).isClosed = l.isClosed := by
  unfold freeHistorySearch; split <;> simp

@[simp] theorem pushFrontChar_isClosed (l : LState) (c : Int) :
    (pushFrontChar l c).isClosed = l.isClosed := by
  unfold pushFrontChar; split <;> rfl

@[simp] theorem resetState_isClosed (l : LState) :
    (resetState l).isClosed = l.isClosed := by
  unfold resetState
  split
  · split
    · simp
    · split <;> simp
  · rfl

@[simp] theorem insertCore_isClosed (l : LState) (c : Int) :
    (linenoiseEditInsertCore l c).isClosed = l.isClosed := by
  simp only [linenoiseEditInsertCore]
  repeat' split
  all_goals simp [emit]

@[simp] theorem insert_isClosed (l : LState) (c : Int) :
    (linenoiseEditInsert l c).isClosed = l.isClosed := by
  simp only [linenoiseEditInsert]
  repeat' split
  all_goals simp

@[simp] theorem cancelInternal_isClosed (l : LState) :
    (cancelInternal l).isClosed = l.isClosed := by
  unfold cancelInternal
  split
  · simp
  · split <;> simp

@[simp] theorem moveLeft_isClosed (l : LState) :
    (linenoiseEditMoveLeft l).isClosed = l.isClosed := by
  unfold linenoiseEditMoveLeft; split <;> simp

@[simp] theorem moveRight_isClosed (l : LState) :
    (linenoiseEditMoveRight l).isClosed = l.isClosed := by
  unfold linenoiseEditMoveRight; split <;> simp

@[simp] theorem delete_isClosed (l : LState) :
    (linenoiseEditDelete l).isClosed = l.isClosed := by
  unfold linenoiseEditDelete; split <;> simp

@[simp] theorem backspace_isClosed (l : LState) :
    (linenoiseEditBackspace l).isClosed = l.isClosed := by
  unfold linenoiseEditBackspace; split <;> simp

@[simp] theorem deletePrevWord_isClosed (l : LState) :
    (linenoiseEditDeletePrevWord l).isClosed = l.isClosed := by
  unfold linenoiseEditDeletePrevWord; simp

@[simp] theorem updateHistoryEntry_isClosed (l : LState) :
    (linenoiseEditUpdateHistoryEntry l).isClosed = l.isClosed := by
  unfold linenoiseEditUpdateHistoryEntry; split <;> rfl

@[simp] theorem showHistoryEntry_isClosed (l : LState) (i : Int) (p : Nat) :
    (linenoiseShowHistoryEntry l i p).isClosed = l.isClosed := by
  unfold linenoiseShowHistoryEntry
  split
  · rfl
  · split
    · rfl
    · simp

@[simp] theorem historyNext_isClosed (l : LState) (d : Bool) :
    (linenoiseEditHistoryNext l d).isClosed = l.isClosed := by
  unfold linenoiseEditHistoryNext; split <;> simp

@[simp] theorem setClosed_isClosed (l : LState) :
    (setClosed l).isClosed = true := by
  unfold setClosed; simp

@[simp] theorem prepareCustomOutputOnNewLine_isClosed (l : LState) :
    (prepareCustomOutputOnNewLine l).isClosed = l.isClosed := by
  unfold prepareCustomOutputOnNewLine; split <;> simp

@[simp] theorem completeLine_isClosed (l : LState) :
    (completeLine l).isClosed = l.isClosed := by
  simp only [completeLine]
  repeat' split
  all_goals simp

@[simp] theorem setSearchPrompt_isClosed (l : LState) :
    (setSearchPrompt l).isClosed = l.isClosed := by
  unfold setSearchPrompt; simp

@[simp] theorem findEntry_isClosed (l : LState) :
    (linenoiseHistoryFindEntry l).isClosed = l.isClosed := by
  simp only [linenoiseHistoryFindEntry]
  repeat' split
  all_goals simp

@[simp] theorem readCharM_isClosed (l : LState) (inp : List Int) :
    (readCharM l inp).2.1.isClosed = l.isClosed := by
  simp only [readCharM]
  repeat' split
  all_goals simp

theorem editHandle_isClosed (hasCb : Bool) (l : LState) (c : Int)
    (h : l.isClosed = true) :
    (linenoiseEditHandle hasCb l c).2.isClosed = true := by
  unfold linenoiseEditHandle
  by_cases h1 : c = RCS_CLOSED
  · rw [if_pos h1]
    simp [h]
  rw [if_neg h1]
  by_cases h2 : c = RCS_ERROR
  · rw [if_pos h2]
    exact h
  rw [if_neg h2]
  by_cases h3 : c = 13
  · rw [if_pos h3]
    simp [h]
  rw [if_neg h3]
  by_cases h4 : c = RCS_CANCELLED ∨ c = 3
  · rw [if_pos h4]
    split <;> simp [h]
  rw [if_neg h4]
  by_cases h5 : c = 127 ∨ c = 8
  · rw [if_pos h5]
    simp [h]
  rw [if_neg h5]
  by_cases h6 : c = 4
  · rw [if_pos h6]
    split <;> simp [h]
  rw [if_neg h6]
  by_cases h7 : c = 20
  · rw [if_pos h7]
    split <;> simp [h]
  rw [if_neg h7]
  by_cases h8 : c = 2
  · rw [if_pos h8]
    simp [h]
  rw [if_neg h8]
  by_cases h9 : c = 6
  · rw [if_pos h9]
    simp [h]
  rw [if_neg h9]
  by_cases h10 : c = 16
  · rw [if_pos h10]
    simp [h]
  rw [if_neg h10]
  by_cases h11 : c = 14
  · rw [if_pos h11]
    simp [h]
  rw [if_neg h11]
  by_cases h12 : c = RCS_ANSI_CURSOR_LEFT
  · rw [if_pos h12]
    simp [h]
  rw [if_neg h12]
  by_cases h13 : c = RCS_ANSI_CURSOR_RIGHT
  · rw [if_pos h13]
    simp [h]
  rw [if_neg h13]
  by_cases h14 : c = RCS_ANSI_CURSOR_UP ∨ c = RCS_ANSI_CURSOR_DOWN
  · rw [if_pos h14]
    simp [h]
  rw [if_neg h14]
  by_cases h15 : c = RCS_ANSI_DELETE
  · rw [if_pos h15]
    simp [h]
  rw [if_neg h15]
  by_cases h16 : c = RCS_ANSI_HOME
  · rw [if_pos h16]
    simp [h]
  rw [if_neg h16]
  by_cases h17 : c = RCS_ANSI_END
  · rw [if_pos h17]
    simp [h]
  rw [if_neg h17]
  by_cases h18 : c = 21
  · rw [if_pos h18]
    simp [h]
  rw [if_neg h18]
  by_cases h19 : c = 11
  · rw [if_pos h19]
    simp [h]
  rw [if_neg h19]
  by_cases h20 : c = 1
  · rw [if_pos h20]
    simp [h]
  rw [if_neg h20]
  by_cases h21 : c = 5
  · rw [if_pos h21]
    simp [h]
  rw [if_neg h21]
  by_cases h22 : c = 12
  · rw [if_pos h22]
    simp [h]
  rw [if_neg h22]
  by_cases h23 : c = 23
  · rw [if_pos h23]
    simp [h]
  rw [if_neg h23]
  by_cases h24 : c = 9
  · rw [if_pos h24]
    split <;> simp [h]
  rw [if_neg h24]
  by_cases h25 : c = 18
  · rw [if_pos h25]
    simp [h]
  rw [if_neg h25]
  simp [h]

theorem completionHandle_isClosed (cb : List Nat → Nat → List SingleCompletion)
    (l : LState) (c : Int) (h : l.isClosed = true) :
    (linenoiseCompletionHandle cb l c).2.isClosed = true := by
  unfold linenoiseCompletionHandle
  by_cases h1 : c = RCS_ERROR
  · rw [if_pos h1]
    exact h
  rw [if_neg h1]
  by_cases h2 : c = 9
  · rw [if_pos h2]
    simp only [h]
    repeat' split
    all_goals simp [h]
  rw [if_neg h2]
  simp [h]

theorem searchHandle_isClosed (l : LState) (c : Int) (h : l.isClosed = true) :
    (linenoiseHistorySearchHandle l c).2.isClosed = true := by
  unfold linenoiseHistorySearchHandle
  by_cases h1 : c = 3 ∨ c = RCS_CANCELLED
  · rw [if_pos h1]
    simp [h]
  rw [if_neg h1]
  by_cases h2 : c = RCS_CLOSED
  · rw [if_pos h2]
    simp [h]
  rw [if_neg h2]
  by_cases h3 : c = RCS_ERROR
  · rw [if_pos h3]
    exact h
  rw [if_neg h3]
  by_cases h4 : c = 127 ∨ c = 8
  · rw [if_pos h4]
    cases hq : l.hsBuf with
    | none => simp [h]
    | some q =>
        simp only [h]
        repeat' split
        all_goals simp [h]
  rw [if_neg h4]
  by_cases h5 : c = 18
  · rw [if_pos h5]
    cases hq : l.hsBuf with
    | none =>
        simp only [h]
        repeat' split
        all_goals simp [h]
    | some q =>
        simp only [h]
        repeat' split
        all_goals simp [h]
  rw [if_neg h5]
  by_cases h6 : 32 ≤ c
  · rw [if_pos h6]
    cases hq : l.hsBuf with
    | none => simp [hq, h]
    | some q =>
        simp only [h]
        repeat' split
        all_goals simp [h]
  rw [if_neg h6]
  simp [h]

theorem editStep_isClosed (hasCb : Bool) (l : LState) (inp : List Int)
    (h : l.isClosed = true) :
    (linenoiseEditStep hasCb l inp).2.1.isClosed = true := by
  simp only [linenoiseEditStep]
  apply editHandle_isClosed
  rw [readCharM_isClosed]
  repeat' split
  all_goals simp [h]

theorem completionStep_isClosed (cb : List Nat → Nat → List SingleCompletion)
    (l : LState) (inp : List Int) (h : l.isClosed = true) :
    (linenoiseCompletionStep cb l inp).2.1.isClosed = true := by
  simp only [linenoiseCompletionStep]
  apply completionHandle_isClosed
  rw [readCharM_isClosed]
  exact h

theorem searchStep_isClosed (l : LState) (inp : List Int) (h : l.isClosed = true) :
    (linenoiseHistorySearchStep l inp).2.1.isClosed = true := by
  simp only [linenoiseHistorySearchStep]
  apply searchHandle_isClosed
  rw [readCharM_isClosed]
  exact h

/-- C10: once a session is closed, the core reading routine returns
`LR_CLOSED` immediately — consuming no input and leaving the state (and so
the edit buffer) untouched — and no editing, completion or search step ever
clears the closed flag. -/
theorem c10_closed_is_sticky (cb : List Nat → Nat → List SingleCompletion)
    (hasCb : Bool) (fuel : Nat) (l : LState) (inp : List Int)
    (h : l.isClosed = true) :
    C10Post cb hasCb fuel l inp := by
  unfold C10Post linenoiseRaw
  rw [if_pos h]
  exact ⟨rfl, editStep_isClosed hasCb l inp h,
    completionStep_isClosed cb l inp h, searchStep_isClosed l inp h⟩

/-- C10 witness: a concrete closed session with pending input. -/
theorem c10_closed_is_sticky_witness :
    C10Post (fun _ _ => []) false 8 c10State [97, 13] :=
  c10_closed_is_sticky (fun _ _ => []) false 8 c10State [97, 13] rfl

/- ===================== Claim C8 supporting lemmas ======================== -/

theorem range_foldl_lastMatch (p : Nat → Bool) (n : Nat) :
    ((List.range n).foldl (fun a i => if p i then some i else a) none = none ∧
      ∀ j, j < n → p j = false) ∨
    (∃ i, (List.range n).foldl (fun a i => if p i then some i else a) none = some i ∧
      p i = true ∧ i < n ∧ ∀ j, i < j → j < n → p j = false) := by
  induction n with
  | zero => exact Or.inl ⟨rfl, by omega⟩
  | succ n ih =>
      rw [List.range_succ, List.foldl_append]
      simp only [List.foldl_cons, List.foldl_nil]
      by_cases hp : p n
      · right
        exact ⟨n, by simp [hp], hp, by omega, by omega⟩
      · have hpf : p n = false := by simpa using hp
        rcases ih with ⟨hnone, hall⟩ | ⟨i, hsome, hpi, hlt, hafter⟩
        · left
          refine ⟨by rw [hnone]; simp [hpf], ?_⟩
          intro j hj
          rcases Nat.lt_succ_iff_lt_or_eq.mp hj with hlt | heq
          · exact hall j hlt
          · rw [heq]; exact hpf
        · right
          refine ⟨i, by rw [hsome]; simp [hpf], hpi, by omega, ?_⟩
          intro j h1 h2
          rcases Nat.lt_succ_iff_lt_or_eq.mp h2 with hlt2 | heq
          · exact hafter j h1 hlt2
          · rw [heq]; exact hpf

theorem matchesAt_le_length (s q : List Nat) (hq : q ≠ []) (j : Nat)
    (h : matchesAt s q j = true) : j + q.length ≤ s.length := by
  have heq : (s.drop j).take q.length = q := by simpa [matchesAt] using h
  have hlen := congrArg List.length heq
  simp only [List.length_take, List.length_drop] at hlen
  have hq0 : 0 < q.length := List.length_pos.mpr hq
  omega

theorem lastSubstrPos_spec (s q : List Nat) (hq : q ≠ []) :
    (lastSubstrPos s q = none ∧ ∀ j, matchesAt s q j = false) ∨
    (∃ i, lastSubstrPos s q = some i ∧ matchesAt s q i = true ∧
      ∀ j, matchesAt s q j = true → j ≤ i) := by
  have hbig : ∀ j, s.length + 1 ≤ j → matchesAt s q j = false := by
    intro j hj
    by_contra hcon
    have := matchesAt_le_length s q hq j (by simpa using hcon)
    have hq0 : 0 < q.length := List.length_pos.mpr hq
    omega
  rcases range_foldl_lastMatch (matchesAt s q) (s.length + 1) with
    ⟨hnone, hall⟩ | ⟨i, hsome, hpi, _, hafter⟩
  · left
    refine ⟨hnone, fun j => ?_⟩
    by_cases hj : j < s.length + 1
    · exact hall j hj
    · exact hbig j (by omega)
  · right
    refine ⟨i, hsome, hpi, fun j hj => ?_⟩
    by_contra hcon
    by_cases hjn : j < s.length + 1
    · rw [hafter j (by omega) hjn] at hj
      exact absurd hj (by simp)
    · rw [hbig j (by omega)] at hj
      exact absurd hj (by simp)

theorem findLoop_spec (h : List (List Nat)) (q : List Nat) :
    ∀ (fuel start : Nat), h.length ≤ start + fuel →
    (findLoop fuel h q start = none ∧
      ∀ j, start ≤ j → j < h.length → lastSubstrPos (histEntry h j) q = none) ∨
    (∃ i off, findLoop fuel h q start = some (i, off) ∧ start ≤ i ∧ i < h.length ∧
      lastSubstrPos (histEntry h i) q = some off ∧
      ∀ j, start ≤ j → j < i → lastSubstrPos (histEntry h j) q = none) := by
  intro fuel
  induction fuel with
  | zero =>
      intro start hf
      left
      exact ⟨rfl, fun j h1 h2 => absurd h2 (by omega)⟩
  | succ fuel ih =>
      intro start hf
      simp only [findLoop]
      by_cases hs : start < h.length
      · rw [if_pos hs]
        rcases ho : lastSubstrPos (histEntry h start) q with _ | off
        · rcases ih (start + 1) (by omega) with ⟨hnone, hall⟩ | ⟨i, off, heq, h1, h2, h3, h4⟩
          · left
            refine ⟨hnone, fun j hj1 hj2 => ?_⟩
            rcases Nat.eq_or_lt_of_le hj1 with heq | hlt
            · rw [← heq]; exact ho
            · exact hall j hlt hj2
          · right
            refine ⟨i, off, heq, by omega, h2, h3, fun j hj1 hj2 => ?_⟩
            rcases Nat.eq_or_lt_of_le hj1 with heq2 | hlt
            · rw [← heq2]; exact ho
            · exact h4 j hlt hj2
        · right
          exact ⟨start, off, rfl, le_rfl, hs, ho, fun j h1 h2 => absurd h2 (by omega)⟩
      · rw [if_neg hs]
        left
        exact ⟨rfl, fun j h1 h2 => absurd h2 (by omega)⟩

@[simp] theorem setTempPrompt_tempprompt (l : LState) (t : Option (List Nat)) :
    (setTempPrompt l t).tempprompt = t := by
  unfold setTempPrompt; split <;> rfl

@[simp] theorem setTempPrompt_mem (l : LState) (t : Option (List Nat)) :
    (setTempPrompt l t).mem = l.mem := by
  unfold setTempPrompt; split <;> rfl

@[simp] theorem setTempPrompt_pos (l : LState) (t : Option (List Nat)) :
    (setTempPrompt l t).pos = l.pos := by
  unfold setTempPrompt; split <;> rfl

@[simp] theorem setTempPrompt_history (l : LState) (t : Option (List Nat)) :
    (setTempPrompt l t).history = l.history := by
  unfold setTempPrompt; split <;> rfl

@[simp] theorem setTempPrompt_historyIndex (l : LState) (t : Option (List Nat)) :
    (setTempPrompt l t).historyIndex = l.historyIndex := by
  unfold setTempPrompt; split <;> rfl

@[simp] theorem setTempPrompt_hsBuf (l : LState) (t : Option (List Nat)) :
    (setTempPrompt l t).hsBuf = l.hsBuf := by
  unfold setTempPrompt; split <;> rfl

@[simp] theorem setTempPrompt_hsFound (l : LState) (t : Option (List Nat)) :
    (setTempPrompt l t).hsFound = l.hsFound := by
  unfold setTempPrompt; split <;> rfl

@[simp] theorem setTempPrompt_hsCurrentIndex (l : LState) (t : Option (List Nat)) :
    (setTempPrompt l t).hsCurrentIndex = l.hsCurrentIndex := by
  unfold setTempPrompt; split <;> rfl

@[simp] theorem setTempPrompt_buflen (l : LState) (t : Option (List Nat)) :
    (setTempPrompt l t).buflen = l.buflen := by
  unfold setTempPrompt; split <;> rfl

theorem showHistoryEntry_valid (l : LState) (i : Int) (p : Nat)
    (h0 : 0 ≤ i) (hlen : i < (l.history.length : Int))
    (hnul : (0:Nat) ∉ l.history.getD (l.history.length - 1 - i.toNat) []) :
    (linenoiseShowHistoryEntry l i p).historyIndex = i ∧
    (linenoiseShowHistoryEntry l i p).len =
      (l.history.getD (l.history.length - 1 - i.toNat) []).length ∧
    (linenoiseShowHistoryEntry l i p).pos =
      min (l.history.getD (l.history.length - 1 - i.toNat) []).length p ∧
    bufList (linenoiseShowHistoryEntry l i p) =
      l.history.getD (l.history.length - 1 - i.toNat) [] ∧
    (linenoiseShowHistoryEntry l i p).hsBuf = l.hsBuf ∧
    (linenoiseShowHistoryEntry l i p).hsFound = l.hsFound ∧
    (linenoiseShowHistoryEntry l i p).tempprompt = l.tempprompt := by
  have ht : (l.history.getD (l.history.length - 1 - i.toNat) []).takeWhile (· != 0)
      = l.history.getD (l.history.length - 1 - i.toNat) [] :=
    takeWhile_ne_zero_eq_self _ hnul
  unfold linenoiseShowHistoryEntry
  rw [if_neg (by omega), if_neg (by omega)]
  simp only [ht]
  refine ⟨by simp, by simp, by simp, ?_, by simp, by simp, by simp⟩
  simp only [bufList, refreshLine_mem, refreshLine_len]
  exact memRange_copyFun _ _ (fun j hj => by simp only [if_pos hj])

theorem not_contains_of_lastSubstrPos_none (s q : List Nat) (hq : q ≠ [])
    (h : lastSubstrPos s q = none) : ¬ containsSubstr s q := by
  rcases lastSubstrPos_spec s q hq with ⟨_, hall⟩ | ⟨i, hs, _, _⟩
  · rintro ⟨k, hk⟩
    rw [hall k] at hk
    exact absurd hk (by simp)
  · rw [h] at hs
    exact absurd hs (by simp)

theorem rightmost_of_lastSubstrPos_some (s q : List Nat) (hq : q ≠ []) (i : Nat)
    (h : lastSubstrPos s q = some i) : RightmostMatch s q i := by
  rcases lastSubstrPos_spec s q hq with ⟨hn, _⟩ | ⟨i2, hs, hm, hmax⟩
  · rw [h] at hn
    exact absurd hn (by simp)
  · rw [h] at hs
    obtain rfl : i = i2 := Option.some.inj hs
    exact ⟨hm, hmax⟩

theorem histEntry_mem (h : List (List Nat)) (i : Nat) (hi : i < h.length) :
    histEntry h i ∈ h := by
  unfold histEntry
  have hidx : h.length - 1 - i < h.length := by omega
  rw [List.getD_eq_getElem h [] hidx]
  exact List.getElem_mem hidx

theorem findEntry_spec (l : LState) (qv : List Nat)
    (hq : l.hsBuf = some qv) (hne : qv ≠ [])
    (hnul : ∀ e ∈ l.history, (0:Nat) ∉ e) :
    (∃ i off, l.hsCurrentIndex ≤ i ∧ i < l.history.length ∧
      RightmostMatch (histEntry l.history i) qv off ∧
      (∀ j, l.hsCurrentIndex ≤ j → j < i →
        ¬ containsSubstr (histEntry l.history j) qv) ∧
      (linenoiseHistoryFindEntry l).hsFound = true ∧
      bufList (linenoiseHistoryFindEntry l) = histEntry l.history i ∧
      (linenoiseHistoryFindEntry l).pos = off + qv.length ∧
      (linenoiseHistoryFindEntry l).tempprompt = some (searchPromptRender qv) ∧
      (linenoiseHistoryFindEntry l).hsCurrentIndex = i ∧
      (linenoiseHistoryFindEntry l).hsBuf = some qv)
    ∨ ((∀ j, l.hsCurrentIndex ≤ j → j < l.history.length →
         ¬ containsSubstr (histEntry l.history j) qv) ∧
       (linenoiseHistoryFindEntry l).hsFound = false ∧
       TermOut.bell ∈ (linenoiseHistoryFindEntry l).out ∧
       (linenoiseHistoryFindEntry l).hsBuf = some qv) := by
  unfold linenoiseHistoryFindEntry
  rw [hq]
  simp only [Option.getD_some]
  rw [if_pos (List.length_pos.mpr hne)]
  rcases findLoop_spec l.history qv l.history.length l.hsCurrentIndex (by omega) with
    ⟨hfl, hnone⟩ | ⟨i, off, hfl, hge, hlt, hlast, hbefore⟩
  · rw [hfl]
    right
    refine ⟨fun j h1 h2 => not_contains_of_lastSubstrPos_none _ _ hne (hnone j h1 h2),
      rfl, ?_, hq⟩
    simp [emit]
  · simp only [hfl]
    left
    have hrm := rightmost_of_lastSubstrPos_some _ _ hne off hlast
    have hentry : (0:Nat) ∉ ({ l with hsFound := true } : LState).history.getD
        ((({ l with hsFound := true } : LState).history).length - 1 - (i : Int).toNat) [] := by
      simp only [Int.toNat_ofNat]
      exact hnul _ (histEntry_mem l.history i hlt)
    have hoffle : off + qv.length ≤ (histEntry l.history i).length :=
      matchesAt_le_length _ _ hne off hrm.1
    have hv := showHistoryEntry_valid
      { setSearchPrompt l with hsFound := true } (i : Int) (off + qv.length)
      (by omega) (by simp [setSearchPrompt]; omega) (by simpa [setSearchPrompt] using hentry)
    have hgd : ({ setSearchPrompt l with hsFound := true } : LState).history.getD
        (({ setSearchPrompt l with hsFound := true } : LState).history.length - 1
          - ((i : Int)).toNat) [] = histEntry l.history i := by
      simp [setSearchPrompt, histEntry]
    refine ⟨i, off, hge, hlt, hrm,
      fun j h1 h2 => not_contains_of_lastSubstrPos_none _ _ hne (hbefore j h1 h2),
      hv.2.2.2.2.2.1.trans rfl,
      hv.2.2.2.1.trans hgd,
      hv.2.2.1.trans (by rw [hgd]; exact min_eq_right hoffle),
      hv.2.2.2.2.2.2.trans (by simp [setSearchPrompt, hq]),
      ?_,
      hv.2.2.2.2.1.trans (by simp [setSearchPrompt, hq])⟩
    rw [hv.1]
    simp

/-- Claim C8: in REVERSE_SEARCH mode, a printable key (32 ≤ c, c ≠ 127, and
not one of the control keys handled earlier in the dispatch) appends the byte
to the query and searches from `current_index` toward older entries; the
first entry containing the query is loaded with the cursor just after the
rightmost occurrence, the temporary prompt shows the query and `found` is
set; if no entry from `current_index` on matches, the engine beeps and
clears `found`. -/
theorem c8_reverse_search_printable (l : LState) (c : Int) (q : List Nat)
    (hq : l.hsBuf = some q) (hc : 32 ≤ c) (hc127 : c ≠ 127)
    (hnul : ∀ e ∈ l.history, (0:Nat) ∉ e) :
    C8Post l c q := by
  have h1 : ¬(c = 3 ∨ c = RCS_CANCELLED) := by unfold RCS_CANCELLED; omega
  have h2 : ¬(c = RCS_CLOSED) := by unfold RCS_CLOSED; omega
  have h3 : ¬(c = RCS_ERROR) := by unfold RCS_ERROR; omega
  have h4 : ¬(c = 127 ∨ c = 8) := by omega
  have h5 : ¬(c = 18) := by omega
  unfold C8Post
  simp only [linenoiseHistorySearchHandle, if_neg h1, if_neg h2, if_neg h3,
    if_neg h4, if_neg h5, if_pos hc, hq]
  rcases findEntry_spec { l with hsBuf := some (q ++ [c.toNat]) } (q ++ [c.toNat])
      rfl (by simp) hnul with
    ⟨i, off, hge, hlt, hrm, hbef, hfound, hbufl, hpos, htp, hci, hbuf⟩ |
    ⟨hnomatch, hnfound, hbell, hbuf⟩
  · simp only [hfound, eq_self_iff_true, not_true, and_false, if_false]
    exact ⟨trivial, hbuf, Or.inl ⟨i, off, hge, hlt, hrm, hbef, trivial, hbufl, hpos, htp, hci⟩⟩
  · split
    · exact ⟨trivial, hbuf, Or.inr ⟨hnomatch, hnfound, hbell⟩⟩
    · exact ⟨trivial, hbuf, Or.inr ⟨hnomatch, hnfound, hbell⟩⟩

/-- Witness for C8: the session `c8State` (history "echo hello", "ls -la"
plus the active sentinel, query "ec", current index 0) receives the
printable key h (104). -/
theorem c8_reverse_search_printable_witness :
    c8State.hsBuf = some (strBytes "ec") ∧ (32:Int) ≤ 104 ∧ (104:Int) ≠ 127 ∧
    (∀ e ∈ c8State.history, (0:Nat) ∉ e) ∧ C8Post c8State 104 (strBytes "ec") :=
  ⟨rfl, by decide, by decide, by decide,
    c8_reverse_search_printable c8State 104 (strBytes "ec") rfl (by decide)
      (by decide) (by decide)⟩
